import Mathlib

/-!
Verification development for the coldbrew tracing JIT for a JVM-like
bytecode virtual machine.  The definitions below are a shallow embedding
of the Rust sources (`bytecode.rs`, `runtime.rs`, `profiler.rs`,
`trace.rs`, `jit.rs`), translated function by function.

Modelling conventions:
* Rust `i32`/`i64`/`usize` are modelled as `Int`/`Nat` with explicit
  wrapping (`% 2^32`, `% 2^64`) at the places where the source performs
  an `as` cast or a `wrapping_*` operation.
* `f32`/`f64` payloads are modelled as rationals (`ℚ`).  No claim below
  depends on rounding; the only float values reachable in the verified
  scenarios are small integer constants on which IEEE arithmetic is
  exact.
* Rust `Vec` used as a stack (push/pop at the end) is modelled as a Lean
  `List` with the head playing the role of the vector's last element.
* `HashMap` is modelled as an association list with insert-replace
  semantics; lookup takes the first (hence unique) binding.
* `panic!`, `todo!`, `unreachable!` and out-of-bounds indexing are
  modelled by an explicit `fatal`/`none` outcome.
-/

namespace Coldbrew

/-- Opcode enumeration from `bytecode.rs`.  Constructor casing follows the
spelling used at the use sites in `runtime.rs`/`trace.rs`/`jit.rs`
(e.g. `ILoad0`, `IfEq`); `bytecode.rs` spells a few of these with
different casing (`Iload0`, `IFEq`) in the captured snapshot. -/
inductive OPCode
  | NOP | AconstNULL
  | IconstM1 | Iconst0 | Iconst1 | Iconst2 | Iconst3 | Iconst4 | Iconst5
  | Lconst0 | Lconst1
  | Fconst0 | Fconst1 | Fconst2
  | Dconst0 | Dconst1
  | BiPush | SiPush | Ldc | LdcW | Ldc2W
  | ILoad | LLoad | FLoad | DLoad | ALoad
  | ILoad0 | ILoad1 | ILoad2 | ILoad3
  | LLoad0 | LLoad1 | LLoad2 | LLoad3
  | FLoad0 | FLoad1 | FLoad2 | FLoad3
  | DLoad0 | DLoad1 | DLoad2 | DLoad3
  | ALoad0 | ALoad1 | ALoad2 | ALoad3
  | IALoad | LALoad | FALoad | DALoad | AALoad | BALoad | CALoad | SALoad
  | IStore | LStore | FStore | DStore | AStore
  | IStore0 | IStore1 | IStore2 | IStore3
  | LStore0 | LStore1 | LStore2 | LStore3
  | FStore0 | FStore1 | FStore2 | FStore3
  | DStore0 | DStore1 | DStore2 | DStore3
  | AStore0 | AStore1 | AStore2 | AStore3
  | IAStore | LAStore | FAStore | DAStore | AAStore | BAStore | CAStore
  | SAStore
  | Pop | Pop2 | Dup | DupX1 | DupX2 | Dup2 | Dup2X1 | Dup2X2 | Swap
  | IAdd | LAdd | FAdd | DAdd
  | ISub | LSub | FSub | DSub
  | IMul | LMul | FMul | DMul
  | IDiv | LDiv | FDiv | DDiv
  | IRem | LRem | FRem | DRem
  | INeg | LNeg | FNeg | DNeg
  | IShl | LShl | IShr | LShr | IUShr | LUShr
  | Iand | Land | IOr | LOr | IXor | LXor
  | IInc
  | I2L | I2F | I2D | L2I | L2F | L2D | F2I | F2L | F2D | D2I | D2L | D2F
  | I2B | I2C | I2S
  | LCmp | FCmpL | FCmpG | DCmpL | DCmpG
  | IfEq | IfNe | IfLt | IfGe | IfGt | IfLe
  | IfICmpEq | IfICmpNe | IfICmpLt | IfICmpGe | IfICmpGt | IfICmpLe
  | IfACmpEq | IfACmpNe
  | Goto | Jsr | Ret
  | TableSwitch | LookupSwitch
  | IReturn | LReturn | FReturn | DReturn | AReturn | Return
  | GetStatic | PutStatic | GetField | PutField
  | InvokeVirtual | InvokeSpecial | InvokeStatic | InvokeInterface
  | InvokeDynamic
  | New | NewArray | ANewArray | ArrayLength | AThrow
  | CheckCast | InstanceOf | MonitorEnter | MonitorExit
  | Wide | MultiANewArray
  | IfNull | IfNonNull | GotoW | JsrW | Breakpoint
  | Unspecified
deriving DecidableEq, Repr

/-- `impl From<u8> for OPCode` in `bytecode.rs`: total decoding of a raw
byte into an opcode; bytes 203..=255 map to `Unspecified`. -/
def OPCode.ofByte (byte : Nat) : OPCode :=
  match byte with
  | 0 => .NOP | 1 => .AconstNULL
  | 2 => .IconstM1 | 3 => .Iconst0 | 4 => .Iconst1 | 5 => .Iconst2
  | 6 => .Iconst3 | 7 => .Iconst4 | 8 => .Iconst5
  | 9 => .Lconst0 | 10 => .Lconst1
  | 11 => .Fconst0 | 12 => .Fconst1 | 13 => .Fconst2
  | 14 => .Dconst0 | 15 => .Dconst1
  | 16 => .BiPush | 17 => .SiPush | 18 => .Ldc | 19 => .LdcW | 20 => .Ldc2W
  | 21 => .ILoad | 22 => .LLoad | 23 => .FLoad | 24 => .DLoad | 25 => .ALoad
  | 26 => .ILoad0 | 27 => .ILoad1 | 28 => .ILoad2 | 29 => .ILoad3
  | 30 => .LLoad0 | 31 => .LLoad1 | 32 => .LLoad2 | 33 => .LLoad3
  | 34 => .FLoad0 | 35 => .FLoad1 | 36 => .FLoad2 | 37 => .FLoad3
  | 38 => .DLoad0 | 39 => .DLoad1 | 40 => .DLoad2 | 41 => .DLoad3
  | 42 => .ALoad0 | 43 => .ALoad1 | 44 => .ALoad2 | 45 => .ALoad3
  | 46 => .IALoad | 47 => .LALoad | 48 => .FALoad | 49 => .DALoad
  | 50 => .AALoad | 51 => .BALoad | 52 => .CALoad | 53 => .SALoad
  | 54 => .IStore | 55 => .LStore | 56 => .FStore | 57 => .DStore
  | 58 => .AStore
  | 59 => .IStore0 | 60 => .IStore1 | 61 => .IStore2 | 62 => .IStore3
  | 63 => .LStore0 | 64 => .LStore1 | 65 => .LStore2 | 66 => .LStore3
  | 67 => .FStore0 | 68 => .FStore1 | 69 => .FStore2 | 70 => .FStore3
  | 71 => .DStore0 | 72 => .DStore1 | 73 => .DStore2 | 74 => .DStore3
  | 75 => .AStore0 | 76 => .AStore1 | 77 => .AStore2 | 78 => .AStore3
  | 79 => .IAStore | 80 => .LAStore | 81 => .FAStore | 82 => .DAStore
  | 83 => .AAStore | 84 => .BAStore | 85 => .CAStore | 86 => .SAStore
  | 87 => .Pop | 88 => .Pop2 | 89 => .Dup | 90 => .DupX1 | 91 => .DupX2
  | 92 => .Dup2 | 93 => .Dup2X1 | 94 => .Dup2X2 | 95 => .Swap
  | 96 => .IAdd | 97 => .LAdd | 98 => .FAdd | 99 => .DAdd
  | 100 => .ISub | 101 => .LSub | 102 => .FSub | 103 => .DSub
  | 104 => .IMul | 105 => .LMul | 106 => .FMul | 107 => .DMul
  | 108 => .IDiv | 109 => .LDiv | 110 => .FDiv | 111 => .DDiv
  | 112 => .IRem | 113 => .LRem | 114 => .FRem | 115 => .DRem
  | 116 => .INeg | 117 => .LNeg | 118 => .FNeg | 119 => .DNeg
  | 120 => .IShl | 121 => .LShl | 122 => .IShr | 123 => .LShr
  | 124 => .IUShr | 125 => .LUShr
  | 126 => .Iand | 127 => .Land | 128 => .IOr | 129 => .LOr
  | 130 => .IXor | 131 => .LXor
  | 132 => .IInc
  | 133 => .I2L | 134 => .I2F | 135 => .I2D | 136 => .L2I | 137 => .L2F
  | 138 => .L2D | 139 => .F2I | 140 => .F2L | 141 => .F2D | 142 => .D2I
  | 143 => .D2L | 144 => .D2F | 145 => .I2B | 146 => .I2C | 147 => .I2S
  | 148 => .LCmp | 149 => .FCmpL | 150 => .FCmpG | 151 => .DCmpL
  | 152 => .DCmpG
  | 153 => .IfEq | 154 => .IfNe | 155 => .IfLt | 156 => .IfGe
  | 157 => .IfGt | 158 => .IfLe
  | 159 => .IfICmpEq | 160 => .IfICmpNe | 161 => .IfICmpLt
  | 162 => .IfICmpGe | 163 => .IfICmpGt | 164 => .IfICmpLe
  | 165 => .IfACmpEq | 166 => .IfACmpNe
  | 167 => .Goto | 168 => .Jsr | 169 => .Ret
  | 170 => .TableSwitch | 171 => .LookupSwitch
  | 172 => .IReturn | 173 => .LReturn | 174 => .FReturn | 175 => .DReturn
  | 176 => .AReturn | 177 => .Return
  | 178 => .GetStatic | 179 => .PutStatic | 180 => .GetField
  | 181 => .PutField
  | 182 => .InvokeVirtual | 183 => .InvokeSpecial | 184 => .InvokeStatic
  | 185 => .InvokeInterface | 186 => .InvokeDynamic
  | 187 => .New | 188 => .NewArray | 189 => .ANewArray
  | 190 => .ArrayLength | 191 => .AThrow
  | 192 => .CheckCast | 193 => .InstanceOf | 194 => .MonitorEnter
  | 195 => .MonitorExit | 196 => .Wide | 197 => .MultiANewArray
  | 198 => .IfNull | 199 => .IfNonNull | 200 => .GotoW | 201 => .JsrW
  | 202 => .Breakpoint
  | _ => .Unspecified

/-- Two's-complement wrap of an integer to the `i32` range. -/
def wrap32 (x : Int) : Int := (x + 2 ^ 31) % 2 ^ 32 - 2 ^ 31

/-- Two's-complement wrap of an integer to the `i64` range. -/
def wrap64 (x : Int) : Int := (x + 2 ^ 63) % 2 ^ 64 - 2 ^ 63

/-- Rust `as usize` on a signed value: reinterpret modulo `2^64`. -/
def usizeOfInt (x : Int) : Nat := (x % 2 ^ 64).toNat

/-- JVM value types (`runtime.rs`, `enum Value`).  `int` carries an `i32`,
`long` an `i64`; the `f32`/`f64` payloads of `float`/`double` are
modelled as rationals. -/
inductive Value
  | int (v : Int)
  | long (v : Int)
  | float (v : ℚ)
  | double (v : ℚ)
deriving DecidableEq, Repr

namespace Value

/-- `Value::add` (`runtime.rs`): integer addition wraps (`wrapping_add`);
same-type addition otherwise; mismatched tags panic (modelled `none`). -/
def add (lhs rhs : Value) : Option Value :=
  match lhs, rhs with
  | .int a, .int b => some (.int (wrap32 (a + b)))
  | .long a, .long b => some (.long (a + b))
  | .float a, .float b => some (.float (a + b))
  | .double a, .double b => some (.double (a + b))
  | _, _ => none

/-- `Value::sub` (`runtime.rs`); mismatched tags panic. -/
def sub (lhs rhs : Value) : Option Value :=
  match lhs, rhs with
  | .int a, .int b => some (.int (a - b))
  | .long a, .long b => some (.long (a - b))
  | .float a, .float b => some (.float (a - b))
  | .double a, .double b => some (.double (a - b))
  | _, _ => none

/-- `Value::mul` (`runtime.rs`); mismatched tags panic. -/
def mul (lhs rhs : Value) : Option Value :=
  match lhs, rhs with
  | .int a, .int b => some (.int (a * b))
  | .long a, .long b => some (.long (a * b))
  | .float a, .float b => some (.float (a * b))
  | .double a, .double b => some (.double (a * b))
  | _, _ => none

/-- `Value::div` (`runtime.rs`); mismatched tags panic; division by zero
is a Rust panic for the integer cases, modelled here by Lean's total
division (no claim exercises it). -/
def div (lhs rhs : Value) : Option Value :=
  match lhs, rhs with
  | .int a, .int b => some (.int (Int.tdiv a b))
  | .long a, .long b => some (.long (Int.tdiv a b))
  | .float a, .float b => some (.float (a / b))
  | .double a, .double b => some (.double (a / b))
  | _, _ => none

/-- `Value::rem` (`runtime.rs`); mismatched tags panic. -/
def rem (lhs rhs : Value) : Option Value :=
  match lhs, rhs with
  | .int a, .int b => some (.int (Int.tmod a b))
  | .long a, .long b => some (.long (Int.tmod a b))
  | .float a, .float b => some (.float (a - b * (a / b)))
  | .double a, .double b => some (.double (a - b * (a / b)))
  | _, _ => none

/-- The generic ordering used by `Value::cmp` in `runtime.rs`:
`-1` when `lhs < rhs`, else `i32::from(lhs > rhs)`. -/
def cmpBy {α : Type} [LT α] [DecidableRel (α := α) (· < ·)]
    (lhs rhs : α) : Int :=
  if lhs < rhs then -1 else if rhs < lhs then 1 else 0

/-- `Value::compare` (`runtime.rs`); mismatched tags panic. -/
def compare (lhs rhs : Value) : Option Int :=
  match lhs, rhs with
  | .int a, .int b => some (cmpBy a b)
  | .long a, .long b => some (cmpBy a b)
  | .float a, .float b => some (cmpBy a b)
  | .double a, .double b => some (cmpBy a b)
  | _, _ => none

/-- `Value::to_int` (`runtime.rs`); numeric casts to `i32`.  The float
cases truncate toward zero (saturation for out-of-range values is not
modelled; no claim exercises it). -/
def to_int (v : Value) : Value :=
  match v with
  | .int a => .int a
  | .long a => .int (wrap32 a)
  | .float a => .int ⌊a⌋
  | .double a => .int ⌊a⌋

/-- `Value::to_long` (`runtime.rs`). -/
def to_long (v : Value) : Value :=
  match v with
  | .int a => .long a
  | .long a => .long a
  | .float a => .long ⌊a⌋
  | .double a => .long ⌊a⌋

/-- `Value::to_float` (`runtime.rs`); rational model of the casts. -/
def to_float (v : Value) : Value :=
  match v with
  | .int a => .float a
  | .long a => .float a
  | .float a => .float a
  | .double a => .float a

/-- `Value::to_double` (`runtime.rs`); rational model of the casts. -/
def to_double (v : Value) : Value :=
  match v with
  | .int a => .double a
  | .long a => .double a
  | .float a => .double a
  | .double a => .double a

end Value

/-- `Instruction` (`runtime.rs`): an opcode plus an optional ordered
operand list. -/
structure Instruction where
  mnemonic : OPCode
  operands : Option (List Value)
deriving DecidableEq, Repr

namespace Instruction

/-- `Instruction::new`. -/
def new (mnemonic : OPCode) (params : Option (List Value)) : Instruction :=
  { mnemonic := mnemonic, operands := params }

/-- `Instruction::get_mnemonic`. -/
def get_mnemonic (i : Instruction) : OPCode := i.mnemonic

/-- `Instruction::get_params` — returns a copy of the operand list.  In
the pure embedding the copy is the list itself; what matters is that
mutating the returned list in the source does NOT mutate the
instruction. -/
def get_params (i : Instruction) : Option (List Value) := i.operands

/-- `Instruction::nth`. -/
def nth (i : Instruction) (index : Nat) : Option Value :=
  match i.operands with
  | some params => params.get? index
  | none => none

end Instruction

/-- `ProgramCounter` (`runtime.rs`): a (method-index, instruction-index)
pair of `usize`. -/
structure ProgramCounter where
  instruction_index : Nat
  method_index : Nat
deriving DecidableEq, Repr

namespace ProgramCounter

/-- `ProgramCounter::new`. -/
def new : ProgramCounter := { instruction_index := 0, method_index := 0 }

def get_instruction_index (pc : ProgramCounter) : Nat := pc.instruction_index

def get_method_index (pc : ProgramCounter) : Nat := pc.method_index

/-- `ProgramCounter::inc_instruction_index`:
`self.instruction_index = ((self.instruction_index as i32) + offset) as usize`.
The `usize → i32` truncation wraps at `2^32`, the addition wraps in
release mode, and the `as usize` cast reinterprets modulo `2^64`. -/
def inc_instruction_index (pc : ProgramCounter) (offset : Int) :
    ProgramCounter :=
  { pc with
    instruction_index :=
      usizeOfInt (wrap32 (wrap32 pc.instruction_index + offset)) }

end ProgramCounter

/-! ## Profiler (`profiler.rs`) -/

/-- The `records: HashMap<ProgramCounter, usize>` of the profiler,
modelled as an association list with insert-replace semantics. -/
abbrev CountMap := List (ProgramCounter × Nat)

/-- Map lookup: first binding for the key, if any. -/
def CountMap.get (m : CountMap) (pc : ProgramCounter) : Option Nat :=
  match m with
  | [] => none
  | (k, v) :: rest => if k = pc then some v else CountMap.get rest pc

/-- Map insert with replacement of an existing binding. -/
def CountMap.insert (m : CountMap) (pc : ProgramCounter) (n : Nat) :
    CountMap :=
  match m with
  | [] => [(pc, n)]
  | (k, v) :: rest =>
    if k = pc then (k, n) :: rest else (k, v) :: CountMap.insert rest pc n

/-- `Profiler` (`profiler.rs`). -/
structure Profiler where
  threshold : Nat
  last_pc : ProgramCounter
  records : CountMap

namespace Profiler

/-- `Profiler::new`: threshold 2, zero `last_pc`, empty records. -/
def new : Profiler :=
  { threshold := 2, last_pc := ProgramCounter.new, records := [] }

/-- `Profiler::count_entry`: bump the count only when `pc` is a backward
branch target in the same method as `last_pc`; update `last_pc`
unconditionally. -/
def count_entry (p : Profiler) (pc : ProgramCounter) : Profiler :=
  let p' :=
    if pc.get_method_index = p.last_pc.get_method_index ∧
        pc.get_instruction_index < p.last_pc.get_instruction_index then
      match p.records.get pc with
      | some record => { p with records := p.records.insert pc (record + 1) }
      | none => { p with records := p.records.insert pc 1 }
    else p
  { p' with last_pc := pc }

/-- `Profiler::count_exit`: bump the count unconditionally and update
`last_pc`. -/
def count_exit (p : Profiler) (pc : ProgramCounter) : Profiler :=
  let p' :=
    match p.records.get pc with
    | some record => { p with records := p.records.insert pc (record + 1) }
    | none => { p with records := p.records.insert pc 1 }
  { p' with last_pc := pc }

/-- `Profiler::is_hot`: true exactly when the recorded count strictly
exceeds the threshold. -/
def is_hot (p : Profiler) (pc : ProgramCounter) : Bool :=
  match p.records.get pc with
  | some record => decide (record > p.threshold)
  | none => false

end Profiler

/-! ## Trace recorder (`trace.rs`) -/

/-- `RecordEntry`: a (pc, instruction) pair. -/
structure RecordEntry where
  pc : ProgramCounter
  inst : Instruction
deriving DecidableEq, Repr

/-- The `HashSet<ProgramCounter>` branch-target sets, modelled as
duplicate-free lists. -/
abbrev PCSet := List ProgramCounter

/-- `HashSet::insert`: add the element if it is not already present. -/
def PCSet.insert (s : PCSet) (pc : ProgramCounter) : PCSet :=
  if pc ∈ s then s else pc :: s

/-- `Recording` (`trace.rs`): a finalized trace snapshot. -/
structure Recording where
  start : ProgramCounter
  trace : List RecordEntry
  inner_branch_targets : PCSet
  outer_branch_targets : PCSet
deriving DecidableEq, Repr

/-- `Recorder` (`trace.rs`).  The `trace` field is a `Vec` pushed/popped
at the end; we keep the list in the same order as the vector (`push` is
`++ [e]`, `pop` takes the last element). -/
structure Recorder where
  trace_start : ProgramCounter
  loop_header : ProgramCounter
  is_recording : Bool
  last_instruction_was_branch : Bool
  trace : List RecordEntry
  inner_branch_targets : PCSet
  outer_branch_targets : PCSet
deriving DecidableEq, Repr

namespace Recorder

/-- `Recorder::new`. -/
def new : Recorder :=
  { trace_start := ProgramCounter.new
    loop_header := ProgramCounter.new
    is_recording := false
    last_instruction_was_branch := false
    trace := []
    inner_branch_targets := []
    outer_branch_targets := [] }

/-- `Recorder::is_done_recording`: returns the boolean answer and the
(possibly aborted) recorder.  An empty trace answers `false`.  When the
last recorded entry is a return opcode (void `Return` included) whose
recorded pc shares the queried pc's method index, the recording is
aborted (`is_recording := false`) and the answer is `false`; otherwise
the answer is `pc == loop_header`. -/
def is_done_recording (r : Recorder) (pc : ProgramCounter) :
    Bool × Recorder :=
  if r.trace.isEmpty then (false, r)
  else
    match r.trace.getLast? with
    | some entry =>
      match entry.inst.get_mnemonic with
      | .Return | .IReturn | .LReturn | .FReturn | .DReturn =>
        if pc.get_method_index = entry.pc.get_method_index then
          (false, { r with is_recording := false })
        else (decide (pc = r.loop_header), r)
      | _ => (decide (pc = r.loop_header), r)
    | none => (false, r)

/-- `Recorder::get_params` (the `const fn` in `trace.rs`): the synthetic
operand for a short-form opcode. -/
def get_params (opcode : OPCode) : Option Value :=
  match opcode with
  | .ILoad0 | .FLoad0 | .LLoad0 | .DLoad0
  | .IStore0 | .FStore0 | .LStore0 | .DStore0
  | .Iconst0 => some (.int 0)
  | .ILoad1 | .FLoad1 | .LLoad1 | .DLoad1
  | .IStore1 | .FStore1 | .LStore1 | .DStore1
  | .Iconst1 => some (.int 1)
  | .ILoad2 | .FLoad2 | .LLoad2 | .DLoad2
  | .IStore2 | .FStore2 | .LStore2 | .DStore2
  | .Iconst2 => some (.int 2)
  | .ILoad3 | .FLoad3 | .LLoad3 | .DLoad3
  | .IStore3 | .FStore3 | .LStore3 | .DStore3
  | .Iconst3 => some (.int 3)
  | .Iconst4 => some (.int 4)
  | .Iconst5 => some (.int 5)
  | .IconstM1 => some (.int (-1))
  | .Fconst0 => some (.float 0)
  | .Fconst1 => some (.float 1)
  | .Fconst2 => some (.float 2)
  | .Lconst0 => some (.long 0)
  | .Lconst1 => some (.long 1)
  | .Dconst0 => some (.double 0)
  | .Dconst1 => some (.double 1)
  | _ => none

/-- Write `offset` into slot 0 of an operand-list copy, mirroring the
closure passed to `map_or_else` in `flip_branch`.  In the source this
writes into the *clone* returned by `get_params()`, so the result is
discarded and the instruction itself is never updated. -/
def setParamsOffset (params : List Value) (offset : Int) : List Value :=
  match params with
  | Value.int _ :: rest => Value.int offset :: rest
  | other => other

/-- `Recorder::flip_branch` (`trace.rs`).  `none` models a panic
(missing/ill-typed parameters, or the `todo!()` arm for an unlisted
taken-branch mnemonic).  Faithful quirks of the source:
* a popped branch whose target does not equal `pc` is *not* pushed back
  (the trace entry is dropped);
* the `offset = 3` write goes into a clone of the operand list, so the
  re-pushed flipped instruction keeps its original offset operand;
* the inner/outer classification tests the *new* offset (always `3`),
  so the flipped target always lands in the outer set. -/
def flip_branch (r : Recorder) (pc : ProgramCounter) : Option Recorder :=
  let r := { r with last_instruction_was_branch := false }
  match r.trace.getLast? with
  | none => some r
  | some branch_entry =>
    let r := { r with trace := r.trace.dropLast }
    match branch_entry.inst.get_params with
    | none => none
    | some params =>
      match params.get? 0 with
      | none => none
      | some (Value.long _) | some (Value.float _)
      | some (Value.double _) => none
      | some (Value.int m) =>
        let offset := m
        let branch_target := branch_entry.pc.inc_instruction_index offset
        if branch_target = pc then
          let offset := (3 : Int)
          let branch_target :=
            branch_entry.pc.inc_instruction_index offset
          -- Source: `branch_entry.inst.get_params().map_or_else(...)`
          -- mutates the cloned list, which is then dropped.
          let _dead := (branch_entry.inst.get_params).map
            (fun ps => setParamsOffset ps offset)
          match branch_entry.inst.get_mnemonic with
          | .IfNe | .IfGt | .IfICmpGe | .IfICmpGt | .IfICmpLe
          | .IfICmpNe =>
            let flipped :=
              match branch_entry.inst.get_mnemonic with
              | .IfNe => OPCode.IfEq
              | .IfGt => OPCode.IfLe
              | .IfICmpGe => OPCode.IfICmpLt
              | .IfICmpGt => OPCode.IfICmpLe
              | .IfICmpLe => OPCode.IfICmpGt
              | _ => OPCode.IfICmpEq
            let new_branch_taget :=
              Instruction.new flipped branch_entry.inst.get_params
            let r :=
              { r with
                trace :=
                  r.trace ++
                    [({ pc := branch_entry.pc, inst := new_branch_taget } : RecordEntry)] }
            if offset < 0 then
              some { r with
                inner_branch_targets :=
                  r.inner_branch_targets.insert branch_target }
            else
              some { r with
                outer_branch_targets :=
                  r.outer_branch_targets.insert branch_target }
          | _ => none
        else some r

/-- `Recorder::record` (`trace.rs`).  `none` models a panic (either
inside `flip_branch` or in the parameter extraction for `Goto` /
`InvokeStatic`).  Faithful quirks of the source:
* the `Goto` arm only early-returns for a *positive* offset; a
  non-positive-offset goto classifies its target and then falls through
  to the final `trace.push`, so back-edge gotos ARE appended;
* the short-form arm lists `IStore0..3`, `FStore0..3`, `DStore0..3` but
  NOT `LStore0..3`, so `lstore_<n>` is appended without a synthesized
  operand. -/
def record (r : Recorder) (pc : ProgramCounter) (inst : Instruction) :
    Option Recorder :=
  let step : Option Recorder :=
    if r.last_instruction_was_branch then r.flip_branch pc else some r
  match step with
  | none => none
  | some r =>
    match inst.get_mnemonic with
    | .Goto =>
      match inst.get_params with
      | none => none
      | some params =>
        match params.get? 0 with
        | some (Value.int v) =>
          let offset := v
          if offset > 0 then some r
          else
            let branch_target := pc.inc_instruction_index offset
            let r :=
              if r.trace_start = branch_target then
                { r with
                  inner_branch_targets :=
                    r.inner_branch_targets.insert branch_target }
              else
                { r with
                  outer_branch_targets :=
                    r.outer_branch_targets.insert branch_target }
            some { r with trace := r.trace ++ [({ pc := pc, inst := inst } : RecordEntry)] }
        | _ => none
    | .IfNe | .IfEq | .IfGt | .IfICmpGe | .IfICmpGt | .IfICmpLt
    | .IfICmpLe | .IfICmpNe | .IfICmpEq =>
      let r := { r with last_instruction_was_branch := true }
      some { r with trace := r.trace ++ [({ pc := pc, inst := inst } : RecordEntry)] }
    | .InvokeStatic =>
      match inst.get_params with
      | none => none
      | some params =>
        match params.get? 0 with
        | none => none
        | some (Value.int m) =>
          if r.trace_start.get_method_index = usizeOfInt m then
            some { r with is_recording := false }
          else
            some { r with trace := r.trace ++ [({ pc := pc, inst := inst } : RecordEntry)] }
        | some _ => none
    | .Iconst0 | .Iconst1 | .Iconst2 | .Iconst3 | .Iconst4 | .Iconst5
    | .IconstM1 | .Lconst0 | .Lconst1 | .Fconst0 | .Fconst1 | .Fconst2
    | .Dconst0 | .Dconst1
    | .ILoad0 | .ILoad1 | .ILoad2 | .ILoad3
    | .DLoad0 | .DLoad1 | .DLoad2 | .DLoad3
    | .FLoad0 | .FLoad1 | .FLoad2 | .FLoad3
    | .LLoad0 | .LLoad1 | .LLoad2 | .LLoad3
    | .IStore0 | .IStore1 | .IStore2 | .IStore3
    | .FStore0 | .FStore1 | .FStore2 | .FStore3
    | .DStore0 | .DStore1 | .DStore2 | .DStore3 =>
      let inst :=
        match get_params inst.get_mnemonic with
        | some value => Instruction.new inst.get_mnemonic (some [value])
        | none => inst
      some { r with trace := r.trace ++ [({ pc := pc, inst := inst } : RecordEntry)] }
    | _ => some { r with trace := r.trace ++ [({ pc := pc, inst := inst } : RecordEntry)] }

/-- `Recorder::init` (`trace.rs`). -/
def init (r : Recorder) (loop_header start : ProgramCounter) : Recorder :=
  if r.is_recording ∧ r.trace_start = start then r
  else
    { r with
      is_recording := true
      last_instruction_was_branch := false
      trace_start := start
      loop_header := loop_header
      trace := []
      inner_branch_targets := []
      outer_branch_targets := [] }

/-- `Recorder::recording` (`trace.rs`): snapshot the trace and return to
idle. -/
def recording (r : Recorder) : Recording × Recorder :=
  ({ start := r.trace_start
     trace := r.trace
     inner_branch_targets := r.inner_branch_targets
     outer_branch_targets := r.outer_branch_targets },
   { r with is_recording := false })

end Recorder

/-! ## Runtime (`runtime.rs`) -/

/-- `RuntimeErrorKind` (`runtime.rs`). -/
inductive RuntimeErrorKind
  | InvalidValue
  | InvalidOperandType (op : OPCode)
  | MissingOperands (op : OPCode)
deriving DecidableEq, Repr

/-- `RuntimeError` (`runtime.rs`). -/
structure RuntimeError where
  kind : RuntimeErrorKind
deriving DecidableEq, Repr

/-- The `HashMap<usize, Value>` of frame locals, as an association list
with insert-replace semantics. -/
abbrev LocalsMap := List (Nat × Value)

/-- Locals lookup: first binding for the key, if any. -/
def LocalsMap.get (m : LocalsMap) (k : Nat) : Option Value :=
  match m with
  | [] => none
  | (k', v) :: rest => if k' = k then some v else LocalsMap.get rest k

/-- Locals insert with replacement of an existing binding. -/
def LocalsMap.insert (m : LocalsMap) (k : Nat) (v : Value) : LocalsMap :=
  match m with
  | [] => [(k, v)]
  | (k', v') :: rest =>
    if k' = k then (k', v) :: rest else (k', v') :: LocalsMap.insert rest k v

/-- `Frame` (`runtime.rs`): a pc, an operand stack and a sparse locals
map.  The stack `Vec` pushes/pops at the end; here the list head is the
top of the stack. -/
structure Frame where
  pc : ProgramCounter
  stack : List Value
  locals : LocalsMap

namespace Frame

def method_index (f : Frame) : Nat := f.pc.method_index

def instruction_index (f : Frame) : Nat := f.pc.instruction_index

/-- `Frame::inc_instruction_index`: `self.pc.instruction_index += 1`. -/
def inc_instruction_index (f : Frame) : Frame :=
  { f with pc := { f.pc with
      instruction_index := f.pc.instruction_index + 1 } }

end Frame

/-- The constant-pool entries the runtime consults (`jvm.rs`,
`enum CPInfo`); every other variant is collapsed into `other`, which the
`fetch` arms treat as the source treats an unexpected entry (panic). -/
inductive CPInfo
  | ConstantInteger (bytes : Nat)
  | ConstantFloat (bytes : Nat)
  | ConstantLong (hi_bytes lo_bytes : Nat)
  | ConstantDouble (hi_bytes lo_bytes : Nat)
  | other
deriving DecidableEq, Repr

/-- The slice of `program.rs`'s `Method` record the verified functions
consult: per-argument slot sizes (`Type::size`: 1 for int/float, 2 for
long/double, 0 otherwise) and the raw bytecode. -/
structure MethodRec where
  arg_sizes : List Nat
  code : List Nat

/-- The slice of `program.rs`'s `Program` the verified functions
consult.  `find_method` abstracts the
`ConstantMethodRef → ConstantNameAndType → name_index` resolution. -/
structure Program where
  constant_pool : List CPInfo
  methods : Nat → Option MethodRec
  find_method : Nat → Nat

namespace Program

/-- `Program::code`: raw bytecode of the method (indexing a missing
method in the source panics; the runtime model surfaces that through
`List.get?` on the empty list). -/
def code (p : Program) (method_index : Nat) : List Nat :=
  match p.methods method_index with
  | some m => m.code
  | none => []

end Program

/-- `Runtime` (`runtime.rs`).  The frame `Vec` pushes/pops at the end;
here the list head is the current (innermost) frame. -/
structure Runtime where
  program : Program
  frames : List Frame
  recorder : Recorder
  profiler : Profiler
  return_values : List Value

namespace Runtime

/-- `Runtime::push`: push onto the current frame's stack (no-op when
there is no frame). -/
def push (s : Runtime) (value : Value) : Runtime :=
  match s.frames with
  | [] => s
  | f :: rest => { s with frames := { f with stack := value :: f.stack } :: rest }

/-- `Runtime::pop`: pop from the current frame's stack. -/
def pop (s : Runtime) : Option Value × Runtime :=
  match s.frames with
  | [] => (none, s)
  | f :: rest =>
    match f.stack with
    | [] => (none, s)
    | v :: stack' => (some v, { s with frames := { f with stack := stack' } :: rest })

/-- `Runtime::store`: pop the top of stack into the local at `index`
(silently does nothing when the stack is empty). -/
def store (s : Runtime) (index : Nat) : Runtime :=
  match s.pop with
  | (some value, s') =>
    match s'.frames with
    | [] => s'
    | f :: rest =>
      { s' with frames := { f with locals := f.locals.insert index value } :: rest }
  | (none, s') => s'

/-- `Runtime::load`: push the local at `index` onto the stack (silently
does nothing when the local is absent). -/
def load (s : Runtime) (index : Nat) : Runtime :=
  match s.frames with
  | [] => s
  | f :: rest =>
    match f.locals.get index with
    | some value => { s with frames := { f with stack := value :: f.stack } :: rest }
    | none => s

/-- `Runtime::jump`: add a relative offset to the current frame's
instruction index (`(ii as isize + offset as isize) as usize`). -/
def jump (s : Runtime) (offset : Int) : Runtime :=
  match s.frames with
  | [] => s
  | f :: rest =>
    { s with frames :=
        { f with pc := { f.pc with
            instruction_index :=
              usizeOfInt ((f.pc.instruction_index : Int) + offset) } } :: rest }

/-- `Runtime::encode_arg`: `(lo as i16) << 8 | hi as i16`, then
sign-extended to `i32`; i.e. the big-endian 16-bit value `(lo, hi)` read
as a signed integer. -/
def encode_arg (lo hi : Nat) : Int :=
  let u := (lo % 256) * 256 + hi % 256
  if u < 32768 then (u : Int) else (u : Int) - 65536

/-- `Runtime::get_relative_offset`: first parameter minus 3; a missing
or non-int parameter panics (`none`). -/
def get_relative_offset (params : List Value) : Option Int :=
  match params.get? 0 with
  | some (Value.int v) => some (v - 3)
  | _ => none

/-- Discriminant order of `Value`'s variants, used by the derived
`PartialOrd` (variants compare by declaration order before payloads). -/
def valueDisc : Value → Nat
  | .int _ => 0
  | .long _ => 1
  | .float _ => 2
  | .double _ => 3

/-- The derived `PartialOrd` comparison on `Value` (for payloads of the
same variant this is the payload order; distinct variants order by
discriminant). -/
def valueCmp (a b : Value) : Ordering :=
  match a, b with
  | .int x, .int y => compare x y
  | .long x, .long y => compare x y
  | .float x, .float y => compare x y
  | .double x, .double y => compare x y
  | _, _ => compare (valueDisc a) (valueDisc b)

/-- Outcome of one `eval` step: success, a typed runtime error, or a
Rust panic (`panic!` / `todo!` / slice-index out of bounds). -/
inductive EvalResult
  | ok (s : Runtime)
  | err (e : RuntimeError)
  | fatal
deriving Inhabited

/-- Shared body of the four typed-return opcodes in `eval`. -/
def evalTypedReturn (s : Runtime) : EvalResult :=
  match s.frames with
  | frame :: rest =>
    match frame.stack with
    | value :: _ =>
      let s := { s with frames := rest,
                        return_values := value :: s.return_values }
      .ok (s.push value)
    | [] => .fatal
  | [] => .err { kind := .InvalidValue }

/-- `Runtime::invoke`: build the callee frame, popping arguments from
the caller's stack in reverse into the callee's local slots.  `none`
models a panic (unknown method or an empty caller stack). -/
def invoke (s : Runtime) (method_name_index : Nat) : Option Runtime :=
  match s.program.methods method_name_index with
  | none => none
  | some method =>
    let rec popArgs (s : Runtime) (restRev : List Nat) (key : Nat)
        (locals : LocalsMap) : Option (Runtime × LocalsMap) :=
      match restRev with
      | [] => some (s, locals)
      | size :: tail =>
        let key := key - size
        match s.pop with
        | (some val, s') => popArgs s' tail key (locals.insert key val)
        | (none, _) => none
    match popArgs s method.arg_sizes.reverse (method.arg_sizes.sum) [] with
    | none => none
    | some (s, locals) =>
      let pc : ProgramCounter :=
        { instruction_index := 0, method_index := method_name_index }
      some { s with frames := { pc := pc, stack := [], locals := locals } :: s.frames }

/-- `Runtime::eval` (`runtime.rs`): evaluate one instruction against the
current frame.  The translation preserves the source's order of
effects: operand-stack pops happen before operand-list validation
exactly where the source pops first. -/
def eval (s : Runtime) (inst : Instruction) : EvalResult :=
  match s.frames with
  | [] => .ok s
  | _ :: _ =>
    match inst.mnemonic with
    | .IconstM1 => .ok (s.push (.int (-1)))
    | .Iconst0 => .ok (s.push (.int 0))
    | .Iconst1 => .ok (s.push (.int 1))
    | .Iconst2 => .ok (s.push (.int 2))
    | .Iconst3 => .ok (s.push (.int 3))
    | .Iconst4 => .ok (s.push (.int 4))
    | .Iconst5 => .ok (s.push (.int 5))
    | .Lconst0 => .ok (s.push (.long 0))
    | .Lconst1 => .ok (s.push (.long 1))
    | .Fconst0 => .ok (s.push (.float 0))
    | .Fconst1 => .ok (s.push (.float 1))
    | .Fconst2 => .ok (s.push (.float 2))
    | .Dconst0 => .ok (s.push (.double 0))
    | .Dconst1 => .ok (s.push (.double 1))
    | .BiPush | .SiPush | .Ldc | .Ldc2W =>
      match inst.operands with
      | some params =>
        match params.get? 0 with
        | some v => .ok (s.push v)
        | none => .fatal
      | none => .err { kind := .MissingOperands inst.mnemonic }
    | .ILoad | .LLoad | .FLoad | .DLoad =>
      match inst.operands with
      | none => .err { kind := .MissingOperands inst.mnemonic }
      | some params =>
        match params.get? 0 with
        | some (Value.int v) => .ok (s.load (usizeOfInt v))
        | _ => .err { kind := .InvalidOperandType inst.mnemonic }
    | .ILoad0 | .LLoad0 | .FLoad0 | .DLoad0 => .ok (s.load 0)
    | .ILoad1 | .LLoad1 | .FLoad1 | .DLoad1 => .ok (s.load 1)
    | .ILoad2 | .LLoad2 | .FLoad2 | .DLoad2 => .ok (s.load 2)
    | .ILoad3 | .LLoad3 | .FLoad3 | .DLoad3 => .ok (s.load 3)
    | .IStore | .LStore | .FStore | .DStore =>
      match inst.operands with
      | none => .err { kind := .MissingOperands inst.mnemonic }
      | some params =>
        match params.get? 0 with
        | some (Value.int v) => .ok (s.store (usizeOfInt v))
        | _ => .err { kind := .InvalidOperandType inst.mnemonic }
    | .IStore0 | .LStore0 | .FStore0 | .DStore0 => .ok (s.store 0)
    | .IStore1 | .LStore1 | .FStore1 | .DStore1 => .ok (s.store 1)
    | .IStore2 | .LStore2 | .FStore2 | .DStore2 => .ok (s.store 2)
    | .IStore3 | .LStore3 | .FStore3 | .DStore3 => .ok (s.store 3)
    | .IAdd | .LAdd | .FAdd | .DAdd =>
      let (rhs, s) := s.pop
      let (lhs, s) := s.pop
      match lhs, rhs with
      | some a, some b =>
        match Value.add a b with
        | some v => .ok (s.push v)
        | none => .fatal
      | _, _ => .err { kind := .InvalidValue }
    | .ISub | .LSub | .FSub | .DSub =>
      let (rhs, s) := s.pop
      let (lhs, s) := s.pop
      match lhs, rhs with
      | some a, some b =>
        match Value.sub a b with
        | some v => .ok (s.push v)
        | none => .fatal
      | _, _ => .err { kind := .InvalidValue }
    | .IMul | .LMul | .FMul | .DMul =>
      let (rhs, s) := s.pop
      let (lhs, s) := s.pop
      match lhs, rhs with
      | some a, some b =>
        match Value.mul a b with
        | some v => .ok (s.push v)
        | none => .fatal
      | _, _ => .err { kind := .InvalidValue }
    | .IDiv | .LDiv | .FDiv | .DDiv =>
      let (rhs, s) := s.pop
      let (lhs, s) := s.pop
      match lhs, rhs with
      | some a, some b =>
        match Value.div a b with
        | some v => .ok (s.push v)
        | none => .fatal
      | _, _ => .err { kind := .InvalidValue }
    | .IRem | .LRem | .FRem | .DRem =>
      let (rhs, s) := s.pop
      let (lhs, s) := s.pop
      match lhs, rhs with
      | some a, some b =>
        match Value.rem a b with
        | some v => .ok (s.push v)
        | none => .fatal
      | _, _ => .err { kind := .InvalidValue }
    | .IInc =>
      match inst.operands with
      | some params =>
        if params.length < 2 then
          .err { kind := .MissingOperands inst.mnemonic }
        else
          match params.get? 0, params.get? 1 with
          | some (Value.int index), some (Value.int constant) =>
            match s.frames with
            | f :: rest =>
              let key := usizeOfInt index
              match f.locals.get key with
              | some val =>
                match Value.add val (.int constant) with
                | some val' =>
                  .ok { s with frames :=
                    { f with locals := f.locals.insert key val' } :: rest }
                | none => .fatal
              | none =>
                .ok { s with frames :=
                  { f with locals := f.locals.insert key (.int constant) } :: rest }
            | [] => .fatal
          | _, _ => .err { kind := .InvalidOperandType inst.mnemonic }
      | none => .err { kind := .MissingOperands inst.mnemonic }
    | .L2I | .F2I | .D2I =>
      match s.pop with
      | (some v, s) => .ok (s.push v.to_int)
      | (none, _) => .fatal
    | .I2F | .L2F | .D2F =>
      match s.pop with
      | (some v, s) => .ok (s.push v.to_float)
      | (none, _) => .fatal
    | .I2D | .L2D | .F2D =>
      match s.pop with
      | (some v, s) => .ok (s.push v.to_double)
      | (none, _) => .fatal
    | .I2L | .F2L | .D2L =>
      match s.pop with
      | (some v, s) => .ok (s.push v.to_long)
      | (none, _) => .fatal
    | .LCmp | .FCmpL | .FCmpG | .DCmpL | .DCmpG =>
      let (rhs, s) := s.pop
      let (lhs, s) := s.pop
      match lhs, rhs with
      | some a, some b =>
        match Value.compare a b with
        | some c => .ok (s.push (.int c))
        | none => .fatal
      | _, _ => .err { kind := .InvalidValue }
    | .IfEq =>
      match s.pop with
      | (some (Value.int value), s) =>
        match inst.operands with
        | none => .fatal
        | some params =>
          match get_relative_offset params with
          | none => .fatal
          | some off => .ok (if value = 0 then s.jump off else s)
      | _ => .fatal
    | .IfNe =>
      match s.pop with
      | (some (Value.int value), s) =>
        match inst.operands with
        | none => .fatal
        | some params =>
          match get_relative_offset params with
          | none => .fatal
          | some off => .ok (if value ≠ 0 then s.jump off else s)
      | _ => .fatal
    | .IfLt =>
      match s.pop with
      | (some (Value.int value), s) =>
        match inst.operands with
        | none => .fatal
        | some params =>
          match get_relative_offset params with
          | none => .fatal
          | some off => .ok (if value < 0 then s.jump off else s)
      | _ => .fatal
    | .IfGt =>
      match s.pop with
      | (some (Value.int value), s) =>
        match inst.operands with
        | none => .fatal
        | some params =>
          match get_relative_offset params with
          | none => .fatal
          | some off => .ok (if value > 0 then s.jump off else s)
      | _ => .fatal
    | .IfLe =>
      match s.pop with
      | (some (Value.int value), s) =>
        match inst.operands with
        | none => .fatal
        | some params =>
          match get_relative_offset params with
          | none => .fatal
          | some off => .ok (if value ≤ 0 then s.jump off else s)
      | _ => .fatal
    | .IfGe =>
      match s.pop with
      | (some (Value.int value), s) =>
        match inst.operands with
        | none => .fatal
        | some params =>
          match get_relative_offset params with
          | none => .fatal
          | some off => .ok (if value ≥ 0 then s.jump off else s)
      | _ => .fatal
    | .IfICmpEq =>
      let (rhs, s) := s.pop
      let (lhs, s) := s.pop
      match inst.operands with
      | none => .fatal
      | some params =>
        match get_relative_offset params with
        | none => .fatal
        | some off =>
          match lhs, rhs with
          | some a, some b => .ok (if a = b then s.jump off else s)
          | _, _ => .err { kind := .InvalidValue }
    | .IfICmpNe =>
      let (rhs, s) := s.pop
      let (lhs, s) := s.pop
      match inst.operands with
      | none => .fatal
      | some params =>
        match get_relative_offset params with
        | none => .fatal
        | some off =>
          match lhs, rhs with
          | some a, some b => .ok (if a ≠ b then s.jump off else s)
          | _, _ => .err { kind := .InvalidValue }
    | .IfICmpLt =>
      let (rhs, s) := s.pop
      let (lhs, s) := s.pop
      match inst.operands with
      | none => .fatal
      | some params =>
        match get_relative_offset params with
        | none => .fatal
        | some off =>
          match lhs, rhs with
          | some a, some b =>
            .ok (if valueCmp a b = .lt then s.jump off else s)
          | _, _ => .err { kind := .InvalidValue }
    | .IfICmpGt =>
      let (rhs, s) := s.pop
      let (lhs, s) := s.pop
      match inst.operands with
      | none => .fatal
      | some params =>
        match get_relative_offset params with
        | none => .fatal
        | some off =>
          match lhs, rhs with
          | some a, some b =>
            .ok (if valueCmp a b = .gt then s.jump off else s)
          | _, _ => .err { kind := .InvalidValue }
    | .IfICmpLe =>
      let (rhs, s) := s.pop
      let (lhs, s) := s.pop
      match inst.operands with
      | none => .fatal
      | some params =>
        match get_relative_offset params with
        | none => .fatal
        | some off =>
          match lhs, rhs with
          | some a, some b =>
            .ok (if valueCmp a b ≠ .gt then s.jump off else s)
          | _, _ => .err { kind := .InvalidValue }
    | .IfICmpGe =>
      let (rhs, s) := s.pop
      let (lhs, s) := s.pop
      match inst.operands with
      | none => .fatal
      | some params =>
        match get_relative_offset params with
        | none => .fatal
        | some off =>
          match lhs, rhs with
          | some a, some b =>
            .ok (if valueCmp a b ≠ .lt then s.jump off else s)
          | _, _ => .err { kind := .InvalidValue }
    | .Goto =>
      match inst.operands with
      | none => .fatal
      | some params =>
        match get_relative_offset params with
        | none => .fatal
        | some off => .ok (s.jump off)
    | .IReturn | .LReturn | .FReturn | .DReturn => evalTypedReturn s
    | .Return =>
      match s.frames with
      | _ :: rest => .ok { s with frames := rest }
      | [] => .ok s
    | .InvokeStatic =>
      match inst.operands with
      | some params =>
        match params.get? 0 with
        | some (Value.int index) =>
          match s.invoke (usizeOfInt index) with
          | some s' => .ok s'
          | none => .fatal
        | _ => .fatal
      | none => .fatal
    | .InvokeVirtual =>
      let (_, s) := s.pop
      .ok s
    | .GetStatic | .NOP | .Dup => .ok s
    | _ => .fatal

/-- `Runtime::next`: read the byte at the frame's instruction index and
advance the index by 1; out-of-bounds indexing panics (`none`). -/
def next (s : Runtime) (frame : Frame) : Option (Nat × Frame) :=
  match (s.program.code frame.method_index).get? frame.instruction_index with
  | some bc => some (bc, frame.inc_instruction_index)
  | none => none

/-- `Runtime::fetch` (`runtime.rs`): pop the current frame, read and
decode one instruction (advancing the frame's pc past the opcode and its
immediate operands), push the frame back.  `none` models a panic (no
frame, out-of-bounds code read, or an unexpected constant-pool
entry).

Faithful detail central to claim C1: the branch/goto arm stores the
*raw* sign-extended 16-bit relative offset (`encode_arg`); no `-3` bias
is applied at decode time. -/
def fetch (s : Runtime) : Option (Instruction × Runtime) :=
  match s.frames with
  | [] => none
  | frame :: restFrames =>
    let s0 := { s with frames := restFrames }
    match s0.next frame with
    | none => none
    | some (byte, frame) =>
      let mnemonic := OPCode.ofByte byte
      let paramsAndFrame : Option (Option (List Value) × Frame) :=
        match mnemonic with
        | .SiPush | .IfEq | .IfNe | .IfLt | .IfLe | .IfGt | .IfGe
        | .IfICmpEq | .IfICmpNe | .IfICmpLt | .IfICmpLe | .IfICmpGt
        | .IfICmpGe | .Goto =>
          match s0.next frame with
          | none => none
          | some (lo, frame) =>
            match s0.next frame with
            | none => none
            | some (hi, frame) =>
              some (some [Value.int (encode_arg lo hi)], frame)
        | .InvokeSpecial | .GetStatic | .InvokeVirtual | .IInc =>
          match s0.next frame with
          | none => none
          | some (first, frame) =>
            match s0.next frame with
            | none => none
            | some (second, frame) =>
              some (some [Value.int first, Value.int second], frame)
        | .BiPush | .ILoad | .FLoad | .LLoad | .DLoad | .IStore
        | .FStore | .LStore | .DStore =>
          match s0.next frame with
          | none => none
          | some (arg, frame) => some (some [Value.int arg], frame)
        | .InvokeStatic =>
          match s0.next frame with
          | none => none
          | some (lo, frame) =>
            match s0.next frame with
            | none => none
            | some (hi, frame) =>
              let method_ref_index := usizeOfInt (encode_arg lo hi)
              let method_name_index := s0.program.find_method method_ref_index
              some (some [Value.int method_name_index], frame)
        | .Ldc2W =>
          match s0.next frame with
          | none => none
          | some (lo, frame) =>
            match s0.next frame with
            | none => none
            | some (hi, frame) =>
              let index := usizeOfInt (encode_arg lo hi)
              match s0.program.constant_pool.get? index with
              | some (CPInfo.ConstantDouble hb lb) =>
                -- `((hi_bytes as i64) << 32) + lo_bytes as i64`, then a
                -- numeric `as f64` cast (modelled exactly as a rational).
                some (some [Value.double (wrap64 (hb * 2 ^ 32 + lb) : Int)], frame)
              | some (CPInfo.ConstantLong hb lb) =>
                some (some [Value.long (wrap64 (hb * 2 ^ 32 + lb))], frame)
              | _ => none
        | .Ldc =>
          match s0.next frame with
          | none => none
          | some (index, frame) =>
            match s0.program.constant_pool.get? index with
            | some (CPInfo.ConstantFloat bytes) =>
              -- `bytes as f32` is a numeric (not bit) cast in the source.
              some (some [Value.float (bytes : ℚ)], frame)
            | some (CPInfo.ConstantInteger bytes) =>
              some (some [Value.int (wrap32 bytes)], frame)
            | _ => none
        | _ => some (none, frame)
      match paramsAndFrame with
      | none => none
      | some (params, frame) =>
        some ({ mnemonic := mnemonic, operands := params },
              { s0 with frames := frame :: restFrames })

/-- Outcome of `Runtime::run`, with an explicit out-of-fuel marker for
the fuelled loop model. -/
inductive RunResult
  | ok (s : Runtime)
  | err (e : RuntimeError)
  | fatal
  | outOfFuel (s : Runtime)

/-- The profile/record prefix of one `run` loop iteration
(`runtime.rs`): read the current pc (`frames.last().unwrap()` — panic
when empty), count it, (re)start a recording when the pc is hot, and
append to an active recording.  `none` models a panic (no frame, or a
panic inside `Recorder::record`). -/
def step_profile_record (s : Runtime) (inst : Instruction) :
    Option Runtime :=
  match s.frames with
  | [] => none
  | f :: _ =>
    let pc := f.pc
    let s := { s with profiler := s.profiler.count_entry pc }
    let s :=
      if s.profiler.is_hot pc then
        { s with recorder := s.recorder.init pc pc }
      else s
    if s.recorder.is_recording then
      (s.recorder.record pc inst).map fun r => { s with recorder := r }
    else some s

/-- `Runtime::run` (`runtime.rs`), with fuel: while frames remain,
fetch, profile, maybe start/continue recording, then evaluate,
propagating any `eval` error out of the loop (`self.eval(&inst)?`).

The source's `run` also consults `self.jit_cache` between recording and
evaluation, but `Runtime` has no `jit_cache` field in this snapshot (the
statement does not compile as written); that dispatch line is therefore
not part of the model. -/
def run (fuel : Nat) (s : Runtime) : RunResult :=
  match fuel with
  | 0 => if s.frames.isEmpty then .ok s else .outOfFuel s
  | fuel + 1 =>
    if s.frames.isEmpty then .ok s
    else
      match s.fetch with
      | none => .fatal
      | some (inst, s) =>
        match step_profile_record s inst with
        | none => .fatal
        | some s =>
          match s.eval inst with
          | .ok s => run fuel s
          | .err e => .err e
          | .fatal => .fatal

end Runtime

/-! ## JIT compiler scratch-register state (`jit.rs`)

The claims about the JIT concern only the scratch-register pool
(`registers: VecDeque<Register>`) and the compile-time operand stack
(`operands: Vec<Operand>`); the assembler, label map and trace cache do
not touch those two fields, so the model below carries exactly the
register/operand state and the state effect of every `compile` arm. -/

/-- `Register` (`jit.rs`): Intel x86-64 registers in the source's
declaration order. -/
inductive Register
  | Rax | Rcx | Rdx | Rbx | Rsp | Rbp | Rsi | Rdi
  | R8 | R9 | R10 | R11 | R12 | R13 | R14 | R15
deriving DecidableEq, Repr

/-- `Operand` (`jit.rs`): register, immediate, or base+offset memory. -/
inductive Operand
  | register (r : Register)
  | immediate (imm : Int)
  | memory (base : Register) (offset : Int)
deriving DecidableEq, Repr

/-- The scratch-allocation state of `JitCache` (`jit.rs`): the free
register queue (`VecDeque`, head = front) and the compile-time operand
stack (head = top). -/
structure JitCache where
  registers : List Register
  operands : List Operand
deriving DecidableEq, Repr

namespace JitCache

/-- `JitCache::new`: the free queue holds, in order, rax, rcx, r8, r9,
r10, r11, rbx, r12, r13, r14, r15 — rdi/rsi (and rdx, rsp, rbp) are
never enqueued. -/
def new : JitCache :=
  { registers :=
      [.Rax, .Rcx, .R8, .R9, .R10, .R11, .Rbx, .R12, .R13, .R14, .R15]
    operands := [] }

/-- `JitCache::first_available_register`: pop the front of the free
queue; an empty queue panics (`none`). -/
def first_available_register (s : JitCache) :
    Option (Operand × JitCache) :=
  match s.registers with
  | reg :: rest => some (.register reg, { s with registers := rest })
  | [] => none

/-- `JitCache::free_register`: pop the operand stack; when the popped
operand is a register, push it to the back of the free queue. -/
def free_register (s : JitCache) : Option Operand × JitCache :=
  match s.operands with
  | [] => (none, s)
  | op :: rest =>
    let s := { s with operands := rest }
    match op with
    | .register reg => (some op, { s with registers := s.registers ++ [reg] })
    | _ => (some op, s)

/-- State effect of `JitCache::emit_arithmetic` (`jit.rs`): pop rhs and
lhs (panicking when absent), reuse lhs's register as the destination or
allocate a fresh one, recycle rhs's register, push the destination.
The x86 instruction choice has no effect on this state. -/
def emit_arithmetic (s : JitCache) : Option JitCache :=
  match s.operands with
  | rhs :: lhsRest =>
    match lhsRest with
    | lhs :: rest =>
      let s := { s with operands := rest }
      let dstState : Option (Operand × JitCache) :=
        match lhs with
        | .register reg => some (.register reg, s)
        | _ => s.first_available_register
      match dstState with
      | none => none
      | some (dst, s) =>
        let s :=
          match rhs with
          | .register reg => { s with registers := s.registers ++ [reg] }
          | _ => s
        some { s with operands := dst :: s.operands }
    | [] => none
  | [] => none

/-- State effect of `JitCache::emit_div` (`jit.rs`): pop the denominator
(panicking when absent), `free_register` the numerator, reuse the
denominator's register as destination or allocate a fresh one, push the
destination. -/
def emit_div (s : JitCache) : Option JitCache :=
  match s.operands with
  | denom :: rest =>
    let s := { s with operands := rest }
    let (_nom, s) := s.free_register
    let dstState : Option (Operand × JitCache) :=
      match denom with
      | .register reg => some (.register reg, s)
      | _ => s.first_available_register
    match dstState with
    | none => none
    | some (dst, s) => some { s with operands := dst :: s.operands }
  | [] => none

/-- State effect of `JitCache::emit_cond_branch` (`jit.rs`): two
`free_register` pops (rhs then lhs); both must yield an operand
(otherwise the source panics). -/
def emit_cond_branch (s : JitCache) : Option JitCache :=
  match s.free_register with
  | (none, _) => none
  | (some _, s) =>
    match s.free_register with
    | (none, _) => none
    | (some _, s) => some s

/-- State effect of one iteration of the `compile` loop (`jit.rs`) on
the register/operand state, by recorded mnemonic.  `none` models the
source's `unreachable!` panics on ill-typed operands and the allocation
panics. -/
def lower_entry (s : JitCache) (entry : RecordEntry) : Option JitCache :=
  match entry.inst.get_mnemonic with
  | .ILoad | .ILoad0 | .ILoad1 | .ILoad2 | .ILoad3 =>
    match entry.inst.nth 0 with
    | some (Value.int _) =>
      match s.first_available_register with
      | none => none
      | some (dst, s) => some { s with operands := dst :: s.operands }
    | _ => none
  | .IStore | .IStore0 | .IStore1 | .IStore2 | .IStore3 =>
    match entry.inst.nth 0 with
    | some (Value.int _) =>
      let (_src, s) := s.free_register
      some s
    | _ => none
  | .BiPush | .SiPush | .Ldc =>
    match entry.inst.nth 0 with
    | some (Value.int imm) =>
      some { s with operands := .immediate imm :: s.operands }
    | _ => none
  | .IAdd | .ISub | .IMul => s.emit_arithmetic
  | .IDiv | .IRem => s.emit_div
  | .IInc =>
    match entry.inst.nth 0, entry.inst.nth 1 with
    | some (Value.int _), some (Value.int _) => some s
    | _, _ => none
  | .Goto =>
    match entry.inst.nth 0 with
    | some (Value.int _) => some s
    | _ => none
  | .IfICmpGe | .IfICmpGt | .IfICmpLe | .IfICmpEq =>
    match entry.inst.nth 0 with
    | some (Value.int _) => s.emit_cond_branch
    | _ => none
  | .IfEq | .IfNe =>
    match s.free_register with
    | (some (Operand.register _), s) => some s
    | (some (Operand.memory _ _), s) => some s
    | _ => none
  | _ => some s

/-- State effect of `JitCache::compile` on the register/operand state:
fold `lower_entry` over the recorded entries (the prologue, guard tail
and epilogue emit code only). -/
def compile_state (s : JitCache) : List RecordEntry → Option JitCache
  | [] => some s
  | entry :: rest =>
    match s.lower_entry entry with
    | none => none
    | some s' => compile_state s' rest

/-- The reachable register/operand states of the JIT: the freshly
constructed cache, and anything a successful `compile` run produces from
a reachable state (no other `JitCache` method touches the two fields). -/
inductive Reachable : JitCache → Prop
  | new : Reachable JitCache.new
  | compile {s s' : JitCache} {entries : List RecordEntry} :
      Reachable s → compile_state s entries = some s' → Reachable s'

end JitCache

/-! ## Statement fixtures

Auxiliary data used only to *state* the theorems below: opcode sets that
name the families the claims quantify over, projections, the invariant
predicate for the JIT scratch pool, and small concrete programs for
witnesses and counterexamples. -/

/-- The return-opcode set matched by `Recorder::is_done_recording`
(note: the void `Return` is included by the source). -/
def isReturnOp : OPCode → Bool
  | .Return | .IReturn | .LReturn | .FReturn | .DReturn => true
  | _ => false

/-- The (taken ↦ flipped) mnemonic table of `Recorder::flip_branch`. -/
def flipTable : List (OPCode × OPCode) :=
  [(.IfNe, .IfEq), (.IfGt, .IfLe), (.IfICmpGe, .IfICmpLt),
   (.IfICmpGt, .IfICmpLe), (.IfICmpLe, .IfICmpGt), (.IfICmpNe, .IfICmpEq)]

/-- The conditional-branch mnemonics that `Recorder::record` marks with
the branch flag (and hence the only ones that can reach `flip_branch`)
but whose taken form has no entry in the flip table: the source hits
`todo!()` on these. -/
def unflippableBranches : List OPCode := [.IfEq, .IfICmpLt, .IfICmpEq]

/-- The thirteen opcodes whose `fetch` arm decodes a 2-byte relative
offset (all conditional branches and goto). -/
def branchOpcodes : List OPCode :=
  [.IfEq, .IfNe, .IfLt, .IfLe, .IfGt, .IfGe,
   .IfICmpEq, .IfICmpNe, .IfICmpLt, .IfICmpLe, .IfICmpGt, .IfICmpGe,
   .Goto]

/-- A concrete operand stack making each branch opcode take its jump
(test fixture for the evaluation half of claim C1). -/
def branchTakenStack : OPCode → List Value
  | .IfEq => [.int 0]
  | .IfNe => [.int 1]
  | .IfLt => [.int (-1)]
  | .IfLe => [.int 0]
  | .IfGt => [.int 1]
  | .IfGe => [.int 0]
  | .IfICmpEq => [.int 4, .int 4]
  | .IfICmpNe => [.int 5, .int 4]
  | .IfICmpLt => [.int 5, .int 4]
  | .IfICmpLe => [.int 4, .int 4]
  | .IfICmpGt => [.int 4, .int 5]
  | .IfICmpGe => [.int 4, .int 4]
  | _ => []

/-- Projection: the instruction index of the top frame of a successful
`eval` outcome. -/
def resultII : Runtime.EvalResult → Option Nat
  | .ok s => s.frames.head?.map fun f => f.pc.instruction_index
  | _ => none

/-- A register that may legally sit in the scratch pool: anything except
rdi and rsi. -/
def regOk (r : Register) : Prop :=
  r ≠ Register.Rdi ∧ r ≠ Register.Rsi

/-- An operand whose register (if it is one) is a legal scratch
register. -/
def opOk (op : Operand) : Prop :=
  ∀ r, op = Operand.register r → regOk r

/-- The JIT scratch-pool invariant: neither the free queue nor the
compile-time operand stack mentions rdi or rsi. -/
def stateOk (s : JitCache) : Prop :=
  (∀ r ∈ s.registers, regOk r) ∧ (∀ op ∈ s.operands, opOk op)

/-- A one-method program whose method 0 has the given bytecode (witness
fixture). -/
def progWithMain (code : List Nat) : Program :=
  { constant_pool := []
    methods := fun i => if i = 0 then some { arg_sizes := [], code := code } else none
    find_method := fun _ => 0 }

/-- A fresh runtime positioned at the start of method 0 of the given
bytecode (witness fixture). -/
def mkRuntime (code : List Nat) : Runtime :=
  { program := progWithMain code
    frames := [{ pc := { instruction_index := 0, method_index := 0 },
                 stack := [], locals := [] }]
    recorder := Recorder.new
    profiler := Profiler.new
    return_values := [] }

/-- A recorder that has just recorded a taken `IfNe` branch (its flag is
set), used to instantiate the branch-flip theorems. -/
def recAfterIfNe : Recorder :=
  { Recorder.new with
    trace := [{ pc := ⟨10, 0⟩, inst := ⟨.IfNe, some [.int 7]⟩ }]
    last_instruction_was_branch := true }

/-- A recorder holding a single void-`Return` entry (fixture for the
`is_done_recording` theorems). -/
def c6r : Recorder :=
  { Recorder.new with trace := [{ pc := ⟨5, 0⟩, inst := ⟨.Return, none⟩ }] }

/-- A recorder holding a single non-return entry (fixture for the
`is_done_recording` theorems). -/
def c6r2 : Recorder :=
  { Recorder.new with trace := [{ pc := ⟨5, 0⟩, inst := ⟨.Iconst0, none⟩ }] }

/-- A profiler with one hot record (count 3 at pc `(2,0)`) whose last
observed pc is `(10,0)` (fixture for the profiler theorems). -/
def c4P : Profiler :=
  { threshold := 2, last_pc := ⟨10, 0⟩, records := [(⟨2, 0⟩, 3)] }

/-! ## Theorems -/

/-- `PCSet.insert` always yields a set containing the inserted pc. -/
theorem PCSet.mem_insert_self (s : PCSet) (pc : ProgramCounter) :
    pc ∈ s.insert pc := by
  unfold PCSet.insert
  split
  · assumption
  · exact List.mem_cons_self pc s

/-- C2 (status: code_bug).  Failing input: a recording whose single
iteration takes an `IfNe` branch with raw offset 7.  `flip_branch`
writes the `+3` offset into the *clone* returned by
`Instruction::get_params`, so the rewritten entry keeps its original
offset operand `7` in the finalized recording — the finalized trace is
NOT all-`+3` as the claim (and the source's own dead write) intends. -/
theorem flip_branch_offset_write_lost :
    (((Recorder.new.init ⟨10, 0⟩ ⟨10, 0⟩).record ⟨10, 0⟩
          ⟨.IfNe, some [.int 7]⟩).bind fun r =>
        r.record ⟨17, 0⟩ ⟨.Iconst0, none⟩).map
        (fun r =>
          ((r.is_done_recording ⟨10, 0⟩).1,
           (r.recording).1.trace.map fun e =>
             (e.inst.mnemonic, e.inst.operands))) =
      some (true, [(.IfEq, some [.int 7]), (.Iconst0, some [.int 0])]) ∧
    (Value.int 7 : Value) ≠ .int 3 := by
  exact ⟨by decide, by decide⟩

/-- C3 counterexample: recording a goto with negative offset `-10`
appends the goto to the trace (the `Goto` arm only early-returns for a
positive offset and otherwise falls through to `trace.push`), refuting
"the goto instruction is not appended"; the back-edge target is still
classified into the inner set. -/
theorem record_goto_negative_appended_counterexample :
    ((Recorder.new.init ⟨10, 0⟩ ⟨10, 0⟩).record ⟨20, 0⟩
        ⟨.Goto, some [.int (-10)]⟩).map
        (fun r =>
          (r.trace.map fun e => (e.inst.mnemonic, e.inst.operands),
           decide ((⟨10, 0⟩ : ProgramCounter) ∈ r.inner_branch_targets))) =
      some ([(.Goto, some [.int (-10)])], true) ∧
    ([(OPCode.Goto, some [Value.int (-10)])] : List (OPCode × Option (List Value))) ≠ [] := by
  exact ⟨by decide, by decide⟩

/-- C3 (amended): with the branch flag clear, recording a goto with
positive offset leaves the recorder unchanged (not appended); recording
a goto with non-positive offset classifies its target — inner when it
equals the trace start, outer otherwise — and DOES append the goto to
the trace. -/
theorem record_goto_spec (r : Recorder) (pc : ProgramCounter) (off : Int)
    (hflag : r.last_instruction_was_branch = false) :
    (0 < off → r.record pc ⟨.Goto, some [.int off]⟩ = some r) ∧
    ((r.record pc ⟨.Goto, some [.int off]⟩).isSome) ∧
    (off ≤ 0 →
      ∀ r', r.record pc ⟨.Goto, some [.int off]⟩ = some r' →
        r'.trace = r.trace ++ [⟨pc, ⟨.Goto, some [.int off]⟩⟩] ∧
        (r.trace_start = pc.inc_instruction_index off →
          pc.inc_instruction_index off ∈ r'.inner_branch_targets ∧
          r'.outer_branch_targets = r.outer_branch_targets) ∧
        (r.trace_start ≠ pc.inc_instruction_index off →
          pc.inc_instruction_index off ∈ r'.outer_branch_targets ∧
          r'.inner_branch_targets = r.inner_branch_targets)) := by
  have hrec : r.record pc ⟨.Goto, some [.int off]⟩ =
      (if 0 < off then some r
       else
         let bt := pc.inc_instruction_index off
         let r1 :=
           if r.trace_start = bt then
             { r with inner_branch_targets := r.inner_branch_targets.insert bt }
           else
             { r with outer_branch_targets := r.outer_branch_targets.insert bt }
         some { r1 with trace := r1.trace ++ [⟨pc, ⟨.Goto, some [.int off]⟩⟩] }) := by
    simp only [Recorder.record, hflag, Bool.false_eq_true, if_false,
      Instruction.get_mnemonic, Instruction.get_params, List.get?]
  rw [hrec]
  refine ⟨fun hpos => by simp [if_pos hpos], ?_, fun hnonpos r' heq => ?_⟩
  · split <;> simp
  · rw [if_neg (by omega)] at heq
    dsimp only at heq
    by_cases hs : r.trace_start = pc.inc_instruction_index off
    · rw [if_pos hs] at heq
      injection heq with heq
      subst heq
      exact ⟨rfl, fun _ => ⟨PCSet.mem_insert_self _ _, rfl⟩,
             fun hne => absurd hs hne⟩
    · rw [if_neg hs] at heq
      injection heq with heq
      subst heq
      exact ⟨rfl, fun h => absurd h hs,
             fun _ => ⟨PCSet.mem_insert_self _ _, rfl⟩⟩

/-- C3 witness: a fresh recording at start `(10,0)` ignores a
positive-offset goto, and a back-edge goto to the start is appended with
its target in the inner set. -/
theorem record_goto_spec_witness :
    (Recorder.new.init ⟨10, 0⟩ ⟨10, 0⟩).record ⟨20, 0⟩
        ⟨.Goto, some [.int 5]⟩ =
      some (Recorder.new.init ⟨10, 0⟩ ⟨10, 0⟩) ∧
    ((Recorder.new.init ⟨10, 0⟩ ⟨10, 0⟩).record ⟨20, 0⟩
        ⟨.Goto, some [.int (-10)]⟩).isSome := by
  exact ⟨(record_goto_spec _ _ _ rfl).1 (by decide),
         (record_goto_spec (Recorder.new.init ⟨10, 0⟩ ⟨10, 0⟩) ⟨20, 0⟩
            (-10) rfl).2.1⟩

/-- C5 (status: code_bug).  Failing input: recording `lstore_0`.  The
short-form arm of `Recorder::record` omits `LStore0..3`, so the entry is
appended with no synthesized operand, although the recorder's own
`get_params` table maps `LStore0` to `Int(0)` (and the analogous
`IStore0` does receive its synthesized operand). -/
theorem record_lstore_short_form_no_operand :
    ((Recorder.new.init ⟨10, 0⟩ ⟨10, 0⟩).record ⟨11, 0⟩
        ⟨.LStore0, none⟩).map
        (fun r => r.trace.map fun e => (e.inst.mnemonic, e.inst.operands)) =
      some [(.LStore0, none)] ∧
    Recorder.get_params .LStore0 = some (.int 0) ∧
    (none : Option (List Value)) ≠ some [Value.int 0] ∧
    ((Recorder.new.init ⟨10, 0⟩ ⟨10, 0⟩).record ⟨11, 0⟩
        ⟨.IStore0, none⟩).map
        (fun r => r.trace.map fun e => (e.inst.mnemonic, e.inst.operands)) =
      some [(.IStore0, some [.int 0])] := by
  exact ⟨by decide, by decide, by decide, by decide⟩

/-- C6 counterexample: a recording whose last entry is a *void*
`Return` recorded at `(5,0)`, queried at the loop header `(0,0)` (same
method): the source aborts and answers `false`, while the claim — whose
exception covers only *typed* returns — predicts `true` (the trace is
non-empty and the pc equals the loop header). -/
theorem is_done_recording_void_return_counterexample :
    ((Recorder.new.init ⟨0, 0⟩ ⟨0, 0⟩).record ⟨5, 0⟩ ⟨.Return, none⟩).map
        (fun r =>
          ((r.is_done_recording ⟨0, 0⟩).1,
           r.trace.isEmpty,
           decide ((⟨0, 0⟩ : ProgramCounter) = r.loop_header),
           r.trace.map fun e => e.inst.mnemonic)) =
      some (false, false, true, [.Return]) ∧
    false ≠ true := by
  exact ⟨by decide, by decide⟩

/-- C7 counterexample: a recording whose single iteration takes an
`IfEq` branch.  The claim says the symmetric mnemonics (ifeq among
them) are negated by the same principle; the source instead hits the
`todo!()` arm of `flip_branch` and panics (modelled `none`) — the
branch-recording step itself succeeds, so the failure is precisely the
missing flip case. -/
theorem flip_branch_ifeq_unimplemented_counterexample :
    (((Recorder.new.init ⟨10, 0⟩ ⟨10, 0⟩).record ⟨10, 0⟩
          ⟨.IfEq, some [.int 7]⟩).bind fun r =>
        r.record ⟨17, 0⟩ ⟨.Iconst0, none⟩) = none ∧
    ((Recorder.new.init ⟨10, 0⟩ ⟨10, 0⟩).record ⟨10, 0⟩
        ⟨.IfEq, some [.int 7]⟩).map
        (fun r =>
          (r.last_instruction_was_branch,
           r.trace.map fun e => (e.inst.mnemonic, e.inst.operands))) =
      some (true, [(.IfEq, some [.int 7])]) := by
  exact ⟨by decide, by decide⟩

/-- Shape of `is_done_recording` on a non-empty trace, by case analysis
over the last entry's mnemonic. -/
theorem is_done_recording_eq (r : Recorder) (pc : ProgramCounter)
    (entry : RecordEntry) (hlast : r.trace.getLast? = some entry)
    (hne : r.trace.isEmpty = false) :
    r.is_done_recording pc =
      (if isReturnOp entry.inst.get_mnemonic then
        (if pc.get_method_index = entry.pc.get_method_index then
          (false, { r with is_recording := false })
         else (decide (pc = r.loop_header), r))
       else (decide (pc = r.loop_header), r)) := by
  unfold Recorder.is_done_recording
  rw [hne, hlast]
  cases hm : entry.inst.get_mnemonic <;> simp [Instruction.get_mnemonic] at hm <;>
    simp [isReturnOp, Instruction.get_mnemonic, hm]

/-- C6 (amended): `is_done_recording(pc)` answers `pc = loop_header`
for a non-empty trace, except that when the last recorded entry is a
return — void `Return` included — whose recorded pc is in the same
method as the queried `pc`, it clears the recording state and answers
`false`; an empty trace answers `false`. -/
theorem is_done_recording_spec (r : Recorder) (pc : ProgramCounter) :
    (r.trace = [] → r.is_done_recording pc = (false, r)) ∧
    (∀ entry, r.trace.getLast? = some entry →
      ((isReturnOp entry.inst.get_mnemonic = true ∧
        pc.get_method_index = entry.pc.get_method_index) →
        r.is_done_recording pc = (false, { r with is_recording := false })) ∧
      (¬(isReturnOp entry.inst.get_mnemonic = true ∧
         pc.get_method_index = entry.pc.get_method_index) →
        r.is_done_recording pc = (decide (pc = r.loop_header), r))) := by
  refine ⟨fun h => by simp [Recorder.is_done_recording, h], fun entry hlast => ?_⟩
  have hne : r.trace.isEmpty = false := by
    cases ht : r.trace with
    | nil => rw [ht] at hlast; simp at hlast
    | cons a l => simp [ht]
  rw [is_done_recording_eq r pc entry hlast hne]
  constructor
  · rintro ⟨hret, hmeth⟩
    rw [if_pos hret, if_pos hmeth]
  · intro hnot
    by_cases hret : isReturnOp entry.inst.get_mnemonic = true
    · have hmeth : pc.get_method_index ≠ entry.pc.get_method_index :=
        fun h => hnot ⟨hret, h⟩
      rw [if_pos hret, if_neg hmeth]
    · rw [if_neg hret]

/-- C6 witness: the void-return recorder aborts at the loop header; the
non-return recorder answers by loop-header comparison. -/
theorem is_done_recording_spec_witness :
    c6r.is_done_recording ⟨0, 0⟩ = (false, { c6r with is_recording := false }) ∧
    c6r2.is_done_recording ⟨0, 0⟩ =
      (decide ((⟨0, 0⟩ : ProgramCounter) = c6r2.loop_header), c6r2) := by
  refine ⟨((is_done_recording_spec c6r ⟨0, 0⟩).2 _ rfl).1 ⟨by decide, by decide⟩,
          ((is_done_recording_spec c6r2 ⟨0, 0⟩).2 _ rfl).2 (by decide)⟩

/-- C7 (amended): when the last recorded branch was taken
(`entry.pc + off = pc`), `flip_branch` rewrites the entry's mnemonic by
the six-pair table (`ifne→ifeq`, `ifgt→ifle`, `if_icmpge→if_icmplt`,
`if_icmpgt→if_icmple`, `if_icmple→if_icmpgt`, `if_icmpne→if_icmpeq`),
keeping the operand list, and classifies the fall-through target as an
outer target; the remaining recordable taken branches (`ifeq`,
`if_icmplt`, `if_icmpeq`) hit the source's `todo!()` and panic instead
of being negated. -/
theorem flip_branch_table_spec (r : Recorder) (entry : RecordEntry)
    (pc : ProgramCounter) (off : Int)
    (hlast : r.trace.getLast? = some entry)
    (hops : entry.inst.operands = some [Value.int off])
    (htaken : entry.pc.inc_instruction_index off = pc) :
    (∀ op flipped, (op, flipped) ∈ flipTable → entry.inst.mnemonic = op →
      r.flip_branch pc =
        some { r with
          last_instruction_was_branch := false
          trace := r.trace.dropLast ++
            [⟨entry.pc, Instruction.new flipped (some [Value.int off])⟩]
          outer_branch_targets :=
            r.outer_branch_targets.insert
              (entry.pc.inc_instruction_index 3) }) ∧
    (∀ op, op ∈ unflippableBranches → entry.inst.mnemonic = op →
      r.flip_branch pc = none) := by
  subst htaken
  constructor
  · intro op flipped hmem hm
    simp only [flipTable, List.mem_cons, List.not_mem_nil, or_false,
      Prod.mk.injEq] at hmem
    rcases hmem with ⟨rfl, rfl⟩ | ⟨rfl, rfl⟩ | ⟨rfl, rfl⟩ | ⟨rfl, rfl⟩ |
      ⟨rfl, rfl⟩ | ⟨rfl, rfl⟩ <;>
      simp [Recorder.flip_branch, hlast, Instruction.get_params, hops,
        Instruction.get_mnemonic, hm, Instruction.new, List.get?,
        show ¬((3 : Int) < 0) by norm_num]
  · intro op hmem hm
    simp only [unflippableBranches, List.mem_cons, List.not_mem_nil,
      or_false] at hmem
    rcases hmem with rfl | rfl | rfl <;>
      simp [Recorder.flip_branch, hlast, Instruction.get_params, hops,
        Instruction.get_mnemonic, hm, List.get?]

/-- C7 witness: flipping the taken `IfNe` of `recAfterIfNe` rewrites the
entry's mnemonic to `IfEq` per the table. -/
theorem flip_branch_table_spec_witness :
    recAfterIfNe.flip_branch ⟨17, 0⟩ =
      some { recAfterIfNe with
        last_instruction_was_branch := false
        trace := recAfterIfNe.trace.dropLast ++
          [⟨⟨10, 0⟩, Instruction.new .IfEq (some [Value.int 7])⟩]
        outer_branch_targets :=
          recAfterIfNe.outer_branch_targets.insert
            ((⟨10, 0⟩ : ProgramCounter).inc_instruction_index 3) } :=
  (flip_branch_table_spec recAfterIfNe ⟨⟨10, 0⟩, ⟨.IfNe, some [.int 7]⟩⟩
      ⟨17, 0⟩ 7 rfl rfl (by decide)).1 .IfNe .IfEq (by decide) rfl

/-- Inserting a count and reading it back. -/
theorem CountMap.get_insert_self (m : CountMap) (pc : ProgramCounter) (n : Nat) :
    (m.insert pc n).get pc = some n := by
  induction m with
  | nil => simp [CountMap.insert, CountMap.get]
  | cons kv rest ih =>
    obtain ⟨k, v⟩ := kv
    by_cases h : k = pc <;> simp [CountMap.insert, CountMap.get, h, ih]

/-- Inserting a count leaves other keys unchanged. -/
theorem CountMap.get_insert_ne (m : CountMap) (pc pcB : ProgramCounter)
    (n : Nat) (h : pcB ≠ pc) : (m.insert pc n).get pcB = m.get pcB := by
  induction m with
  | nil => simp [CountMap.insert, CountMap.get, Ne.symm h]
  | cons kv rest ih =>
    obtain ⟨k, v⟩ := kv
    by_cases hk : k = pc
    · subst hk
      simp [CountMap.insert, CountMap.get, Ne.symm h, ih]
    · simp [CountMap.insert, CountMap.get, hk, ih]

/-- C4: `count_entry(pc)` bumps pc's count exactly when pc's method
index equals the last-observed pc's method index and its instruction
index is strictly smaller, leaves every other count unchanged, and
updates `last_pc` unconditionally; `is_hot(pc)` holds exactly when the
recorded count strictly exceeds the threshold, and `Profiler::new` sets
the threshold to 2. -/
theorem profiler_count_entry_is_hot_spec (p : Profiler)
    (pc pcB : ProgramCounter) :
    ((p.count_entry pc).last_pc = pc) ∧
    ((p.count_entry pc).records.get pc =
      if pc.get_method_index = p.last_pc.get_method_index ∧
          pc.get_instruction_index < p.last_pc.get_instruction_index then
        some ((p.records.get pc).getD 0 + 1)
      else p.records.get pc) ∧
    (pcB ≠ pc → (p.count_entry pc).records.get pcB = p.records.get pcB) ∧
    Profiler.new.threshold = 2 ∧
    (p.is_hot pc = true ↔ ∃ n, p.records.get pc = some n ∧ p.threshold < n) := by
  refine ⟨rfl, ?_, fun h => ?_, rfl, ?_⟩
  · unfold Profiler.count_entry
    by_cases hc : pc.get_method_index = p.last_pc.get_method_index ∧
        pc.get_instruction_index < p.last_pc.get_instruction_index
    · rw [if_pos hc]
      cases hg : p.records.get pc <;>
        simp [hg, CountMap.get_insert_self, hc]
    · rw [if_neg hc]
      simp [hc]
  · unfold Profiler.count_entry
    by_cases hc : pc.get_method_index = p.last_pc.get_method_index ∧
        pc.get_instruction_index < p.last_pc.get_instruction_index
    · rw [if_pos hc]
      cases hg : p.records.get pc <;>
        simp [hg, CountMap.get_insert_ne _ _ _ _ h]
    · rw [if_neg hc]
  · unfold Profiler.is_hot
    cases hg : p.records.get pc <;> simp [hg]

/-- C4 witness: on the concrete profiler `c4P`, counting pc `(2,0)`
leaves pc `(9,9)` untouched, and hotness is the count-exceeds-2 test. -/
theorem profiler_count_entry_is_hot_spec_witness :
    (c4P.count_entry ⟨2, 0⟩).records.get ⟨9, 9⟩ = c4P.records.get ⟨9, 9⟩ ∧
    (c4P.is_hot ⟨2, 0⟩ = true ↔
      ∃ n, c4P.records.get ⟨2, 0⟩ = some n ∧ c4P.threshold < n) :=
  ⟨(profiler_count_entry_is_hot_spec c4P ⟨2, 0⟩ ⟨9, 9⟩).2.2.1 (by decide),
   (profiler_count_entry_is_hot_spec c4P ⟨2, 0⟩ ⟨9, 9⟩).2.2.2.2⟩

/-- C10: evaluating a typed load (long form with an int operand, or any
short form) whose effective local index is absent from the current
frame's locals leaves the entire runtime state unchanged and succeeds,
and evaluating any typed-store short form with an empty operand stack
likewise leaves the state unchanged and succeeds. -/
theorem load_store_missing_silent_spec (s : Runtime) (f : Frame)
    (rest : List Frame) (h : s.frames = f :: rest) :
    (∀ op, (op = OPCode.ILoad ∨ op = .LLoad ∨ op = .FLoad ∨ op = .DLoad) →
      ∀ v : Int, f.locals.get (usizeOfInt v) = none →
        s.eval ⟨op, some [Value.int v]⟩ = .ok s) ∧
    (∀ op n,
      ((op = OPCode.ILoad0 ∨ op = .LLoad0 ∨ op = .FLoad0 ∨ op = .DLoad0) ∧ n = 0 ∨
       (op = .ILoad1 ∨ op = .LLoad1 ∨ op = .FLoad1 ∨ op = .DLoad1) ∧ n = 1 ∨
       (op = .ILoad2 ∨ op = .LLoad2 ∨ op = .FLoad2 ∨ op = .DLoad2) ∧ n = 2 ∨
       (op = .ILoad3 ∨ op = .LLoad3 ∨ op = .FLoad3 ∨ op = .DLoad3) ∧ n = 3) →
      f.locals.get n = none → s.eval ⟨op, none⟩ = .ok s) ∧
    (f.stack = [] →
      ∀ op,
        (op = OPCode.IStore0 ∨ op = .LStore0 ∨ op = .FStore0 ∨ op = .DStore0 ∨
         op = .IStore1 ∨ op = .LStore1 ∨ op = .FStore1 ∨ op = .DStore1 ∨
         op = .IStore2 ∨ op = .LStore2 ∨ op = .FStore2 ∨ op = .DStore2 ∨
         op = .IStore3 ∨ op = .LStore3 ∨ op = .FStore3 ∨ op = .DStore3) →
        s.eval ⟨op, none⟩ = .ok s) := by
  have hload : ∀ n, f.locals.get n = none → s.load n = s := by
    intro n hn
    simp [Runtime.load, h, hn]
  have hstore : f.stack = [] → ∀ n, s.store n = s := by
    intro hs n
    simp [Runtime.store, Runtime.pop, h, hs]
  refine ⟨?_, ?_, ?_⟩
  · rintro op (rfl | rfl | rfl | rfl) v hv <;>
      simp [Runtime.eval, h, hload _ hv]
  · rintro op n
      (⟨rfl | rfl | rfl | rfl, rfl⟩ | ⟨rfl | rfl | rfl | rfl, rfl⟩ |
       ⟨rfl | rfl | rfl | rfl, rfl⟩ | ⟨rfl | rfl | rfl | rfl, rfl⟩) hv <;>
      simp [Runtime.eval, h, hload _ hv]
  · rintro hs op
      (rfl | rfl | rfl | rfl | rfl | rfl | rfl | rfl |
       rfl | rfl | rfl | rfl | rfl | rfl | rfl | rfl) <;>
      simp [Runtime.eval, h, hstore hs]

/-- C10 witness: on a fresh runtime with empty stack and locals,
`iload 5`, `iload_0` and `istore_0` all succeed without changing the
state. -/
theorem load_store_missing_silent_witness :
    (mkRuntime []).eval ⟨.ILoad, some [.int 5]⟩ = .ok (mkRuntime []) ∧
    (mkRuntime []).eval ⟨.ILoad0, none⟩ = .ok (mkRuntime []) ∧
    (mkRuntime []).eval ⟨.IStore0, none⟩ = .ok (mkRuntime []) :=
  ⟨(load_store_missing_silent_spec (mkRuntime []) _ [] rfl).1 .ILoad
      (Or.inl rfl) 5 rfl,
   (load_store_missing_silent_spec (mkRuntime []) _ [] rfl).2.1 .ILoad0 0
      (Or.inl ⟨Or.inl rfl, rfl⟩) rfl,
   (load_store_missing_silent_spec (mkRuntime []) _ [] rfl).2.2 rfl .IStore0
      (Or.inl rfl)⟩

/-- C8: with a current frame present, (i) `bipush`/`sipush`/`ldc`/
`ldc2w` with no operand list evaluate to `MissingOperands`; (ii) a typed
load or store (long form) whose single operand is not an `Int` evaluates
to `InvalidOperandType`; (iii) every arithmetic and comparison opcode
with fewer than two stack values evaluates to `InvalidValue`; and (iv)
any `eval` error inside a `run` iteration propagates out of `run`
unchanged (the loop's `self.eval(&inst)?`). -/
theorem eval_error_model_spec (s : Runtime) (f : Frame) (rest : List Frame)
    (h : s.frames = f :: rest) :
    (∀ op, (op = OPCode.BiPush ∨ op = .SiPush ∨ op = .Ldc ∨ op = .Ldc2W) →
      s.eval ⟨op, none⟩ = .err ⟨.MissingOperands op⟩) ∧
    (∀ op v, (op = OPCode.ILoad ∨ op = .LLoad ∨ op = .FLoad ∨ op = .DLoad ∨
              op = .IStore ∨ op = .LStore ∨ op = .FStore ∨ op = .DStore) →
      (∀ x : Int, v ≠ Value.int x) →
      s.eval ⟨op, some [v]⟩ = .err ⟨.InvalidOperandType op⟩) ∧
    (∀ op ops,
      (op = OPCode.IAdd ∨ op = .LAdd ∨ op = .FAdd ∨ op = .DAdd ∨
       op = .ISub ∨ op = .LSub ∨ op = .FSub ∨ op = .DSub ∨
       op = .IMul ∨ op = .LMul ∨ op = .FMul ∨ op = .DMul ∨
       op = .IDiv ∨ op = .LDiv ∨ op = .FDiv ∨ op = .DDiv ∨
       op = .IRem ∨ op = .LRem ∨ op = .FRem ∨ op = .DRem ∨
       op = .LCmp ∨ op = .FCmpL ∨ op = .FCmpG ∨ op = .DCmpL ∨ op = .DCmpG) →
      f.stack.length < 2 →
      s.eval ⟨op, ops⟩ = .err ⟨.InvalidValue⟩) ∧
    (∀ (fuel : Nat) (sA : Runtime) (inst : Instruction) (s1 s2 : Runtime)
        (e : RuntimeError),
      sA.frames.isEmpty = false →
      sA.fetch = some (inst, s1) →
      Runtime.step_profile_record s1 inst = some s2 →
      s2.eval inst = .err e →
      Runtime.run (fuel + 1) sA = .err e) := by
  refine ⟨?_, ?_, ?_, ?_⟩
  · rintro op (rfl | rfl | rfl | rfl) <;> simp [Runtime.eval, h]
  · rintro op v
      (rfl | rfl | rfl | rfl | rfl | rfl | rfl | rfl) hv <;>
      (cases v with
       | int x => exact absurd rfl (hv x)
       | long a => simp [Runtime.eval, h]
       | float a => simp [Runtime.eval, h]
       | double a => simp [Runtime.eval, h])
  · rintro op ops
      (rfl | rfl | rfl | rfl | rfl | rfl | rfl | rfl | rfl | rfl | rfl | rfl |
       rfl | rfl | rfl | rfl | rfl | rfl | rfl | rfl | rfl | rfl | rfl | rfl |
       rfl) hlen <;>
      (rcases hst : f.stack with _ | ⟨a, _ | ⟨b, t⟩⟩ <;>
        first
        | (rw [hst] at hlen; simp only [List.length_cons] at hlen; omega)
        | simp [Runtime.eval, Runtime.pop, h, hst])
  · intro fuel sA inst s1 s2 e hne hfetch hstep heval
    simp [Runtime.run, hne, hfetch, hstep, heval]

/-- C8 witness: the three error shapes on a fresh runtime, and a
one-instruction program (`iadd` on an empty stack) whose error
terminates `run`. -/
theorem eval_error_model_spec_witness :
    (mkRuntime []).eval ⟨.BiPush, none⟩ =
      .err ⟨.MissingOperands .BiPush⟩ ∧
    (mkRuntime []).eval ⟨.ILoad, some [.float 1]⟩ =
      .err ⟨.InvalidOperandType .ILoad⟩ ∧
    (mkRuntime []).eval ⟨.IAdd, none⟩ = .err ⟨.InvalidValue⟩ ∧
    Runtime.run 1 (mkRuntime [96]) = .err ⟨.InvalidValue⟩ := by
  have hm := eval_error_model_spec (mkRuntime []) _ [] rfl
  exact ⟨hm.1 .BiPush (Or.inl rfl),
         hm.2.1 .ILoad (.float 1) (Or.inl rfl)
           (fun x hx => Value.noConfusion hx),
         hm.2.2.1 .IAdd none (Or.inl rfl) (by decide),
         hm.2.2.2 0 (mkRuntime [96]) ⟨.IAdd, none⟩ _ _ ⟨.InvalidValue⟩
           rfl rfl rfl rfl⟩

/-- The freshly constructed scratch pool satisfies the invariant. -/
theorem stateOk_new : stateOk JitCache.new := by
  constructor
  · intro r hr
    fin_cases hr <;> exact ⟨by decide, by decide⟩
  · intro op hop
    simp [JitCache.new] at hop

/-- Recycling a legal register preserves the invariant. -/
theorem stateOk_push_back (s : JitCache) (reg : Register) (h : stateOk s)
    (hreg : regOk reg) : stateOk { s with registers := s.registers ++ [reg] } := by
  refine ⟨fun r hr => ?_, h.2⟩
  simp only [List.mem_append, List.mem_singleton] at hr
  rcases hr with hr | rfl
  · exact h.1 r hr
  · exact hreg

/-- Pushing a legal operand preserves the invariant. -/
theorem stateOk_push_op (s : JitCache) (op : Operand) (h : stateOk s)
    (hop : opOk op) : stateOk { s with operands := op :: s.operands } := by
  refine ⟨h.1, fun o ho => ?_⟩
  rcases List.mem_cons.mp ho with rfl | ho
  · exact hop
  · exact h.2 o ho

/-- Dropping the top operand preserves the invariant. -/
theorem stateOk_drop_op (s : JitCache) (op : Operand) (rest : List Operand)
    (h : stateOk s) (hops : s.operands = op :: rest) :
    stateOk { s with operands := rest } :=
  ⟨h.1, fun o ho => h.2 o (by rw [hops]; exact List.mem_cons_of_mem _ ho)⟩

/-- `first_available_register` preserves the invariant and only hands
out legal registers. -/
theorem stateOk_far (s : JitCache) (op : Operand) (s' : JitCache)
    (h : stateOk s) (heq : s.first_available_register = some (op, s')) :
    stateOk s' ∧ opOk op := by
  rcases hreg : s.registers with _ | ⟨reg, rest⟩ <;>
    simp only [JitCache.first_available_register, hreg] at heq
  · exact Option.noConfusion heq
  · simp only [Option.some.injEq, Prod.mk.injEq] at heq
    obtain ⟨rfl, rfl⟩ := heq
    have hregOk : regOk reg := h.1 reg (by rw [hreg]; exact List.mem_cons_self _ _)
    refine ⟨⟨fun r hr => h.1 r (by rw [hreg]; exact List.mem_cons_of_mem _ hr), h.2⟩, ?_⟩
    intro r hr
    injection hr with hr
    subst hr
    exact hregOk

/-- `free_register` preserves the invariant and only returns operands
over legal registers. -/
theorem stateOk_free (s : JitCache) (h : stateOk s) :
    stateOk (s.free_register).2 ∧
    (∀ op, (s.free_register).1 = some op → opOk op) := by
  rcases hops : s.operands with _ | ⟨op, rest⟩
  · simp only [JitCache.free_register, hops]
    exact ⟨h, by simp⟩
  · have hop : opOk op := h.2 op (by rw [hops]; exact List.mem_cons_self _ _)
    have hdrop : stateOk { s with operands := rest } := stateOk_drop_op s op rest h hops
    cases op with
    | register reg =>
      simp only [JitCache.free_register, hops]
      refine ⟨stateOk_push_back _ reg hdrop (hop reg rfl), ?_⟩
      intro o ho
      injection ho with ho
      subst ho
      exact hop
    | immediate imm =>
      simp only [JitCache.free_register, hops]
      exact ⟨hdrop, fun o ho => by injection ho with ho; subst ho; exact hop⟩
    | memory b off =>
      simp only [JitCache.free_register, hops]
      exact ⟨hdrop, fun o ho => by injection ho with ho; subst ho; exact hop⟩

/-- The `emit_arithmetic` state effect preserves the invariant. -/
theorem stateOk_arith (s s' : JitCache) (h : stateOk s)
    (heq : s.emit_arithmetic = some s') : stateOk s' := by
  unfold JitCache.emit_arithmetic at heq
  rcases hops : s.operands with _ | ⟨rhs, _ | ⟨lhs, rest⟩⟩ <;>
    rw [hops] at heq
  · exact Option.noConfusion heq
  · exact Option.noConfusion heq
  · have hrhs : opOk rhs := h.2 rhs (by rw [hops]; exact List.mem_cons_self _ _)
    have hlhs : opOk lhs := h.2 lhs (by
      rw [hops]; exact List.mem_cons_of_mem _ (List.mem_cons_self _ _))
    have h1 : stateOk { s with operands := rest } :=
      ⟨h.1, fun o ho => h.2 o (by
        rw [hops]
        exact List.mem_cons_of_mem _ (List.mem_cons_of_mem _ ho))⟩
    simp only at heq
    rcases hd : (match lhs with
        | Operand.register reg =>
          some (Operand.register reg, { s with operands := rest })
        | _ => JitCache.first_available_register { s with operands := rest })
      with _ | ⟨dst, s2⟩ <;> rw [hd] at heq
    · exact Option.noConfusion heq
    · have hds : stateOk s2 ∧ opOk dst := by
        cases lhs with
        | register reg =>
          simp only [Option.some.injEq, Prod.mk.injEq] at hd
          obtain ⟨rfl, rfl⟩ := hd
          exact ⟨h1, hlhs⟩
        | immediate imm => exact stateOk_far _ _ _ h1 hd
        | memory b off => exact stateOk_far _ _ _ h1 hd
      injection heq with heq
      subst heq
      cases rhs with
      | register regR =>
        exact stateOk_push_op _ dst
          (stateOk_push_back _ regR hds.1 (hrhs regR rfl)) hds.2
      | immediate imm => exact stateOk_push_op _ dst hds.1 hds.2
      | memory b off => exact stateOk_push_op _ dst hds.1 hds.2

/-- The `emit_div` state effect preserves the invariant. -/
theorem stateOk_div (s s' : JitCache) (h : stateOk s)
    (heq : s.emit_div = some s') : stateOk s' := by
  unfold JitCache.emit_div at heq
  rcases hops : s.operands with _ | ⟨denom, rest⟩ <;> rw [hops] at heq
  · exact Option.noConfusion heq
  · have hdenom : opOk denom := h.2 denom (by
      rw [hops]; exact List.mem_cons_self _ _)
    have h1 : stateOk { s with operands := rest } :=
      stateOk_drop_op s denom rest h hops
    have h2 : stateOk ({ s with operands := rest } : JitCache).free_register.2 :=
      (stateOk_free _ h1).1
    simp only at heq
    rcases hd : (match denom with
        | Operand.register reg =>
          some (Operand.register reg,
            ({ s with operands := rest } : JitCache).free_register.2)
        | _ =>
          ({ s with operands := rest } : JitCache).free_register.2.first_available_register)
      with _ | ⟨dst, s2⟩ <;> rw [hd] at heq
    · exact Option.noConfusion heq
    · have hds : stateOk s2 ∧ opOk dst := by
        cases denom with
        | register reg =>
          simp only [Option.some.injEq, Prod.mk.injEq] at hd
          obtain ⟨rfl, rfl⟩ := hd
          exact ⟨h2, hdenom⟩
        | immediate imm => exact stateOk_far _ _ _ h2 hd
        | memory b off => exact stateOk_far _ _ _ h2 hd
      injection heq with heq
      subst heq
      exact stateOk_push_op _ dst hds.1 hds.2

/-- The `emit_cond_branch` state effect preserves the invariant. -/
theorem stateOk_cond (s s' : JitCache) (h : stateOk s)
    (heq : s.emit_cond_branch = some s') : stateOk s' := by
  unfold JitCache.emit_cond_branch at heq
  rcases h1 : s.free_register with ⟨o1, s1⟩
  rw [h1] at heq
  have hs1 : stateOk s1 := by
    have := (stateOk_free s h).1
    rw [h1] at this
    exact this
  cases o1 with
  | none => exact Option.noConfusion heq
  | some o =>
    simp only at heq
    rcases h2 : s1.free_register with ⟨o2, s2⟩
    rw [h2] at heq
    have hs2 : stateOk s2 := by
      have := (stateOk_free s1 hs1).1
      rw [h2] at this
      exact this
    cases o2 with
    | none => exact Option.noConfusion heq
    | some o2v =>
      simp only at heq
      injection heq with heq
      subst heq
      exact hs2

/-- Each `compile`-loop iteration preserves the invariant. -/
theorem stateOk_lower (s s' : JitCache) (entry : RecordEntry) (h : stateOk s)
    (heq : s.lower_entry entry = some s') : stateOk s' := by
  unfold JitCache.lower_entry at heq
  split at heq <;>
  first
    | exact Option.noConfusion heq
    | (injection heq with heq; subst heq; exact h)
    | exact stateOk_arith _ _ h heq
    | exact stateOk_div _ _ h heq
    | (split at heq <;>
       first
         | exact Option.noConfusion heq
         | (injection heq with heq; subst heq; exact h)
         | exact stateOk_cond _ _ h heq
         | (injection heq with heq
            subst heq
            exact stateOk_push_op _ _ h (fun r hr => Operand.noConfusion hr))
         | (rcases hfree : s.free_register with ⟨src, s2⟩
            rw [hfree] at heq
            simp only at heq
            injection heq with heq
            subst heq
            have hfr := (stateOk_free s h).1
            rw [hfree] at hfr
            exact hfr)
         | (rename_i r s2 hfree
            injection heq with heq
            subst heq
            have hfr := (stateOk_free s h).1
            rw [hfree] at hfr
            exact hfr)
         | (split at heq <;>
            first
              | exact Option.noConfusion heq
              | (rename_i dst s2 hfar
                 injection heq with heq
                 subst heq
                 exact stateOk_push_op _ _ (stateOk_far _ _ _ h hfar).1
                   (stateOk_far _ _ _ h hfar).2)))

/-- A whole `compile` run preserves the invariant. -/
theorem stateOk_compile (entries : List RecordEntry) :
    ∀ s s' : JitCache, stateOk s → JitCache.compile_state s entries = some s' →
      stateOk s' := by
  induction entries with
  | nil =>
    intro s s' h heq
    injection heq with heq
    subst heq
    exact h
  | cons e tail ih =>
    intro s s' h heq
    unfold JitCache.compile_state at heq
    rcases hle : s.lower_entry e with _ | s1 <;> rw [hle] at heq
    · exact Option.noConfusion heq
    · exact ih s1 s' (stateOk_lower s s1 e h hle) heq

/-- Every reachable JIT state satisfies the scratch-pool invariant. -/
theorem stateOk_reachable (s : JitCache) (h : JitCache.Reachable s) :
    stateOk s := by
  induction h with
  | new => exact stateOk_new
  | compile hre hcomp ih => exact stateOk_compile _ _ _ ih hcomp

/-- C9: in every reachable state of the JIT compiler the free-register
queue contains neither rdi nor rsi, no register operand on the
compile-time operand stack is rdi or rsi, and any register handed out by
`first_available_register` is neither rdi nor rsi — no lowering step can
allocate rdi or rsi as scratch. -/
theorem jit_scratch_pool_excludes_rdi_rsi (s : JitCache)
    (h : JitCache.Reachable s) :
    (Register.Rdi ∉ s.registers ∧ Register.Rsi ∉ s.registers) ∧
    (∀ r, Operand.register r ∈ s.operands →
      r ≠ Register.Rdi ∧ r ≠ Register.Rsi) ∧
    (∀ op s', s.first_available_register = some (op, s') →
      ∀ r, op = Operand.register r →
        r ≠ Register.Rdi ∧ r ≠ Register.Rsi) := by
  have hok := stateOk_reachable s h
  refine ⟨⟨fun hmem => (hok.1 _ hmem).1 rfl, fun hmem => (hok.1 _ hmem).2 rfl⟩,
          fun r hmem => hok.2 _ hmem r rfl,
          fun op s' heq r hr => (stateOk_far s op s' hok heq).2 r hr⟩

/-- C1 counterexample: fetching a goto whose raw offset bytes encode 5
stores the operand `Int 5` — the raw 16-bit offset, not the −3-biased
value `Int 2` the claim asserts. -/
theorem fetch_branch_raw_offset_counterexample :
    ((mkRuntime [167, 0, 5]).fetch).map
        (fun p => (p.1.mnemonic, p.1.operands)) =
      some (.Goto, some [.int 5]) ∧
    (some [Value.int 5] : Option (List Value)) ≠ some [.int (5 - 3)] := by
  exact ⟨rfl, by decide⟩

/-- Shape of one `Runtime::next` step on an in-bounds code index. -/
theorem next_shape (prog : Program) (rest : List Frame) (rc : Recorder)
    (prof : Profiler) (rv : List Value) (k m byte : Nat)
    (st : List Value) (lc : LocalsMap)
    (hk : (prog.code m).get? k = some byte) :
    Runtime.next ⟨prog, rest, rc, prof, rv⟩ ⟨⟨k, m⟩, st, lc⟩ =
      some (byte, ⟨⟨k + 1, m⟩, st, lc⟩) := by
  rw [List.get?_eq_getElem?] at hk
  simp [Runtime.next, Frame.method_index, Frame.instruction_index,
    Frame.inc_instruction_index, hk]

/-- C1 (amended): for every conditional branch and goto, `fetch` stores
the RAW sign-extended 16-bit relative offset (`encode_arg lo hi`,
unbiased) and advances the instruction index past the 3-byte
instruction; the −3 bias is applied at evaluation time by
`get_relative_offset` (operand − 3), so a taken branch decoded at index
`i` with original offset `off` lands at `i + off` — original JVM branch
semantics. -/
theorem branch_operand_raw_and_eval_bias (prog : Program) (m i : Nat)
    (b lo hi : Nat) (op : OPCode) (fstack : List Value)
    (flocals : LocalsMap) (rest : List Frame)
    (rc : Recorder) (prof : Profiler) (rv : List Value)
    (hb : (prog.code m).get? i = some b)
    (hlo : (prog.code m).get? (i + 1) = some lo)
    (hhi : (prog.code m).get? (i + 2) = some hi)
    (hbop : OPCode.ofByte b = op)
    (hop : op ∈ branchOpcodes) :
    (Runtime.fetch ⟨prog, ⟨⟨i, m⟩, fstack, flocals⟩ :: rest, rc, prof, rv⟩ =
      some (⟨op, some [Value.int (Runtime.encode_arg lo hi)]⟩,
            ⟨prog, ⟨⟨i + 3, m⟩, fstack, flocals⟩ :: rest, rc, prof, rv⟩)) ∧
    (∀ (params : List Value) (v : Int), params.get? 0 = some (Value.int v) →
      Runtime.get_relative_offset params = some (v - 3)) ∧
    (∀ (off : Int) (locals : LocalsMap),
      resultII (Runtime.eval
        ⟨prog, ⟨⟨i + 3, m⟩, branchTakenStack op, locals⟩ :: rest,
         rc, prof, rv⟩
        ⟨op, some [Value.int off]⟩) =
      some (usizeOfInt ((i : Int) + off))) := by
  have hn1 := next_shape prog rest rc prof rv i m b fstack flocals hb
  have hn2 := next_shape prog rest rc prof rv (i + 1) m lo fstack flocals hlo
  have hn3 := next_shape prog rest rc prof rv (i + 2) m hi fstack flocals hhi
  refine ⟨?_, fun params v hv => ?_, fun off locals => ?_⟩
  · simp only [branchOpcodes, List.mem_cons, List.not_mem_nil,
      or_false] at hop
    rcases hop with rfl | rfl | rfl | rfl | rfl | rfl | rfl | rfl | rfl |
      rfl | rfl | rfl | rfl <;>
      (unfold Runtime.fetch
       dsimp only
       rw [hn1]
       dsimp only
       rw [hbop]
       dsimp only
       rw [hn2]
       dsimp only
       rw [hn3])
  · unfold Runtime.get_relative_offset
    rw [hv]
  · simp only [branchOpcodes, List.mem_cons, List.not_mem_nil,
      or_false] at hop
    rcases hop with rfl | rfl | rfl | rfl | rfl | rfl | rfl | rfl | rfl |
      rfl | rfl | rfl | rfl <;>
      simp +decide [Runtime.eval, Runtime.pop, Runtime.jump, Runtime.push,
        Runtime.get_relative_offset, resultII, branchTakenStack,
        Runtime.valueCmp, Value.compare]

/-- C1 witness: a one-instruction method `[ifeq, 0, 7]` — fetch stores
the raw offset 7, and evaluating the taken branch after the 3-byte
advance lands at instruction index 0 + 7. -/
theorem branch_operand_raw_and_eval_bias_witness :
    (Runtime.fetch
        ⟨progWithMain [153, 0, 7], ⟨⟨0, 0⟩, [], []⟩ :: [],
         Recorder.new, Profiler.new, []⟩ =
      some (⟨.IfEq, some [Value.int (Runtime.encode_arg 0 7)]⟩,
            ⟨progWithMain [153, 0, 7], ⟨⟨0 + 3, 0⟩, [], []⟩ :: [],
             Recorder.new, Profiler.new, []⟩)) ∧
    resultII (Runtime.eval
        ⟨progWithMain [153, 0, 7],
         ⟨⟨0 + 3, 0⟩, branchTakenStack .IfEq, []⟩ :: [],
         Recorder.new, Profiler.new, []⟩
        ⟨.IfEq, some [Value.int 7]⟩) =
      some (usizeOfInt ((0 : Int) + 7)) := by
  have h := branch_operand_raw_and_eval_bias (progWithMain [153, 0, 7])
    0 0 153 0 7 .IfEq [] [] [] Recorder.new Profiler.new []
    rfl rfl rfl rfl (by decide)
  exact ⟨h.1, h.2.2 7 []⟩

/-- C9 witness: the invariant instantiated at the freshly constructed
cache. -/
theorem jit_scratch_pool_excludes_rdi_rsi_witness :
    (Register.Rdi ∉ JitCache.new.registers ∧
     Register.Rsi ∉ JitCache.new.registers) ∧
    (∀ r, Operand.register r ∈ JitCache.new.operands →
      r ≠ Register.Rdi ∧ r ≠ Register.Rsi) ∧
    (∀ op s', JitCache.new.first_available_register = some (op, s') →
      ∀ r, op = Operand.register r →
        r ≠ Register.Rdi ∧ r ≠ Register.Rsi) :=
  jit_scratch_pool_excludes_rdi_rsi JitCache.new JitCache.Reachable.new

end Coldbrew
